import Mathlib

/-!
# Khazad: voxel cube flags and the cell render cache

A shallow embedding of `Map/Cube.h` (the solid/liquid setters) and of
`Render/ScreenManager.cpp` (`Render`, `RefreshDrawlist`, `IncrementTriangles`,
`DirtyAllLists`, `setShadedDraw`, `getShading`), followed by the properties
proved about them.

Conventions of the embedding:

* `float` values (`LookZ`, `getViewLevels`, the shading intensity) are exact
  rationals.
* `for` loops run on their machine counters (`Uint16 Zlevel`, `Uint32 SizeX`,
  `Uint32 SizeY`, `Uint32 SizeZ`): the counter is incremented modulo `2^16` or
  `2^32`, and a loop is given fuel, so that a loop whose bound is not
  representable in its counter never returns.
* `GLuint` sums (`DrawListID + 1`, ...) are taken modulo `2^32`.
* The OpenGL command stream is recorded as a list of `GLCall`s.
-/

namespace Khazad

/-! ## `Map/Cube.h` -/

/-- The data members of `Cube` read or written by the flag accessors
(`Solid`, `Liquid`) together with `Material`; the face and slope pointers are
not touched by them. -/
structure Cube where
  Solid : Bool
  Liquid : Bool
  Material : Nat
deriving DecidableEq, Repr

namespace Cube

/-- Source: `bool isSolid() { return Solid; }` -/
def isSolid (c : Cube) : Bool := c.Solid

/-- Source: `void setSolid(bool NewValue) { Solid = NewValue; Liquid = !NewValue;}` -/
def setSolid (c : Cube) (NewValue : Bool) : Cube :=
  { c with Solid := NewValue, Liquid := !NewValue }

/-- Source: `bool isLiquid() { return Liquid; }` -/
def isLiquid (c : Cube) : Bool := c.Liquid

/-- Source: `void setLiquid(bool NewValue) { Liquid = NewValue; Solid = !NewValue;}` -/
def setLiquid (c : Cube) (NewValue : Bool) : Cube :=
  { c with Liquid := NewValue, Solid := !NewValue }

end Cube

/-- One call of a flag setter, with its argument. -/
inductive CubeCall where
  | setSolid (NewValue : Bool)
  | setLiquid (NewValue : Bool)
deriving DecidableEq, Repr

/-- Perform one setter call on a cube. -/
def CubeCall.perform (c : Cube) : CubeCall → Cube
  | .setSolid v => c.setSolid v
  | .setLiquid v => c.setLiquid v

/-- Perform a finite sequence of setter calls, first call first. -/
def performCalls (c : Cube) (calls : List CubeCall) : Cube :=
  calls.foldl CubeCall.perform c

/-! ## `Render/ScreenManager.cpp`: the data the render pass reads and writes -/

/-- Modelled from the spec: the enumeration `Direction` (the "view direction
enum" of the camera service) is declared in a header that is not part of the
sources. `Render` compares the camera direction with the four diagonal values
only; the remaining compass points stand for every other value. -/
inductive Direction where
  | NORTH | SOUTH | EAST | WEST
  | NORTHEAST | SOUTHEAST | SOUTHWEST | NORTHWEST
deriving DecidableEq, Repr

/-- Modelled from the spec: `Vector3`, the type of a cell's world position, is
declared in a header that is not part of the sources. -/
structure Vector3 where
  x : ℚ
  y : ℚ
  z : ℚ
deriving DecidableEq

/-- Modelled from the spec: `Cell` is declared in `Cell.h`, which is not part of
the sources. A cell has a world position, cached compiled-geometry handles, a
dirty flag and a cached triangle count; these are the members the render pass
uses: `Position`, `DrawListID` (the first of four consecutive handles),
`DirtyDrawlist`, and the count behind `getTriangleCount` / `setTriangleCount`. -/
structure Cell where
  Position : Vector3
  DrawListID : Nat
  DirtyDrawlist : Bool
  TriangleCount : Nat
deriving DecidableEq

/-- Modelled from the spec: `Cell::getTriangleCount()` (`Cell.h`, not part of the
sources) returns the cached triangle count. -/
def Cell.getTriangleCount (c : Cell) : Nat := c.TriangleCount

/-- Modelled from the spec: `Cell::setTriangleCount(Triangles)` (`Cell.h`, not
part of the sources) stores the cached triangle count. -/
def Cell.setTriangleCount (c : Cell) (Triangles : Nat) : Cell :=
  { c with TriangleCount := Triangles }

/-- Modelled from the spec: `Map` is declared in `Map.h`, which is not part of
the sources. A map has an initialized flag, a 3D extent in cells and a cell
lookup by grid coordinate; `cells x y z` is the cell `getCell(x, y, z)` points
to. The widths of the extents are not fixed by the sources: they are naturals,
and what is proved about a loop assumes its bound representable in its
counter. -/
structure Map where
  Initialized : Bool
  CellSizeX : Nat
  CellSizeY : Nat
  CellSizeZ : Nat
  cells : Nat → Nat → Nat → Cell

namespace Map

/-- Modelled from the spec: `MAP->getCellSizeX()`, the extent in cells along X. -/
def getCellSizeX (m : Map) : Nat := m.CellSizeX

/-- Modelled from the spec: `MAP->getCellSizeY()`, the extent in cells along Y. -/
def getCellSizeY (m : Map) : Nat := m.CellSizeY

/-- Modelled from the spec: `MAP->getCellSizeZ()`, the extent in cells along Z. -/
def getCellSizeZ (m : Map) : Nat := m.CellSizeZ

/-- Modelled from the spec: `MAP->getCell(X, Y, Z)`, the cell lookup by grid
coordinate. -/
def getCell (m : Map) (X Y Z : Nat) : Cell := m.cells X Y Z

/-- A write through the pointer returned by `getCell(X, Y, Z)`. -/
def setCell (m : Map) (X Y Z : Nat) (c : Cell) : Map :=
  { m with cells := fun a b d => if a = X ∧ b = Y ∧ d = Z then c else m.cells a b d }

end Map

/-- Modelled from the spec: the camera service (`Camera.h`, not part of the
sources) as far as `Render` and `getShading` call it: the look level `LookZ()`,
the configured view depth in levels, the view direction and the
sphere-in-frustum predicate. -/
structure Camera where
  LookZ : ℚ
  ViewLevels : ℚ
  CameraDirection : Direction
  sphereInFrustum : Vector3 → Nat → Bool

/-- Modelled from the spec: `MainCamera->getDirection()`, the view direction. -/
def Camera.getDirection (c : Camera) : Direction := c.CameraDirection

/-- Modelled from the spec: `MainCamera->getViewLevels()`, the configured view
depth in levels. -/
def Camera.getViewLevels (c : Camera) : ℚ := c.ViewLevels

/-- The second argument of `glNewList`. -/
inductive ListMode where
  | GL_COMPILE
  | GL_COMPILE_AND_EXECUTE
deriving DecidableEq, Repr

/-- The calls `Render` issues, in the order issued. `DrawCage` stands for the
line primitives of one `DrawCage` call, `CellDraw x y z o` for the call
`Draw(o)` on the cell at `(x, y, z)`. -/
inductive GLCall where
  | glClear
  | UpdateView
  | DrawCage
  | glMatrixMode
  | glLoadIdentity
  | glScalef
  | glBindTexture
  | glPopMatrix
  | glColor3f (r g b : ℚ)
  | glDeleteLists (list range : Nat)
  | glNewList (list : Nat) (mode : ListMode)
  | glBegin
  | CellDraw (x y z : Nat) (o : Direction)
  | glEnd
  | glEndList
  | glCallList (list : Nat)
deriving DecidableEq

/-- The members of `ScreenManager` used by the render pass, and the command
stream `gl` it has issued so far. The widths of the triangle counters are
declared in a header that is not part of the sources; they are unbounded here. -/
structure ScreenManager where
  FrameDraw : Bool
  ShadedDraw : Bool
  TotalTriangles : Nat
  TriangleCounter : Nat
  RedPickingValue : Nat
  GreenPickingValue : Nat
  BluePickingValue : Nat
  MainCamera : Camera
  gl : List GLCall

/-- Append one call to the command stream. -/
def ScreenManager.emit (s : ScreenManager) (c : GLCall) : ScreenManager :=
  { s with gl := s.gl ++ [c] }

/-- Source: `float ScreenManager::getShading(float Zlevel)` -/
def getShading (s : ScreenManager) (Zlevel : ℚ) : ℚ :=
  if !s.ShadedDraw then
    1
  else if Zlevel ≤ s.MainCamera.LookZ then
    let Depth := s.MainCamera.LookZ - Zlevel
    if Depth < s.MainCamera.getViewLevels then
      if Depth > 0 then
        1 - Depth / s.MainCamera.getViewLevels
      else
        1
    else
      0
  else
    0

/-- A screen manager with the given shading switch, look level and view window;
the other members are immaterial for `getShading`. -/
def shadingScreen (ShadedDraw : Bool) (L V : ℚ) : ScreenManager :=
  { FrameDraw := true, ShadedDraw := ShadedDraw, TotalTriangles := 0, TriangleCounter := 0,
    RedPickingValue := 0, GreenPickingValue := 0, BluePickingValue := 0,
    MainCamera := { LookZ := L, ViewLevels := V, CameraDirection := Direction.NORTHEAST,
                    sphereInFrustum := fun _ _ => true },
    gl := [] }

/-- The process-wide services `Render` reaches through `SCREEN`, `MAP` and
`CONFIG`: the screen manager, the map (`none` for `MAP == NULL`) and the
configured cell edge length (`CONFIG->getCellEdgeLength()`, which `Render`
stores in a `Uint16`). -/
structure World where
  SCREEN : ScreenManager
  MAP : Option Map
  CellEdgeLength : Nat

/-- A `for (T i = start; i < bound; i++) body` loop on an unsigned counter of
`modulus` values. The bound is re-read from the state before each iteration and
the increment wraps around; `none` is returned when the fuel is used up. -/
def forLoop {σ : Type} (modulus : Nat) (bound : σ → Nat) (body : Nat → σ → Option σ) :
    Nat → Nat → σ → Option σ
  | 0, _, _ => none
  | fuel + 1, i, s =>
    if i < bound s then
      (body i s).bind (fun s' => forLoop modulus bound body fuel ((i + 1) % modulus) s')
    else
      some s

/-- Source: `void ScreenManager::IncrementTriangles(Uint32 Triangles)` -/
def IncrementTriangles (s : ScreenManager) (Triangles : Nat) : ScreenManager :=
  { s with TriangleCounter := s.TriangleCounter + Triangles }

/-- Source: `DrawListID + k` on `GLuint`. -/
def GLuintAdd (DrawListID k : Nat) : Nat := (DrawListID + k) % 4294967296

/-- Source: `void ScreenManager::RefreshDrawlist(Cell* TargetCell, GLuint DrawListID,
Direction Orientation, bool Execute)`, with `TargetCell` the cell at `(x, y, z)`.
`Cell::Draw` is not part of the sources: `cellDraw x y z o` lists the arguments
of the `IncrementTriangles` calls that `Draw(o)` makes on that cell. -/
def RefreshDrawlist (cellDraw : Nat → Nat → Nat → Direction → List Nat) (x y z : Nat)
    (DrawListID : Nat) (Orientation : Direction) (Execute : Bool)
    (p : ScreenManager × Map) : ScreenManager × Map :=
  let s0 := p.1.emit (GLCall.glNewList DrawListID
    (if Execute then ListMode.GL_COMPILE_AND_EXECUTE else ListMode.GL_COMPILE))
  let s1 := { s0 with TriangleCounter := 0 }
  let s2 := s1.emit GLCall.glBegin
  let s3 := (cellDraw x y z Orientation).foldl IncrementTriangles
    (s2.emit (GLCall.CellDraw x y z Orientation))
  let s4 := s3.emit GLCall.glEnd
  if Execute then
    (({ s4 with TotalTriangles := s4.TotalTriangles + s4.TriangleCounter }).emit GLCall.glEndList,
      p.2.setCell x y z ((p.2.getCell x y z).setTriangleCount s4.TriangleCounter))
  else
    (s4.emit GLCall.glEndList, p.2)

/-- The body of the innermost loop of `Render` for the cell at
`(SizeX, SizeY, Zlevel)`: frustum test, then rebuild of the four lists when
the cell is dirty, replay otherwise. -/
def visitCell (cellDraw : Nat → Nat → Nat → Direction → List Nat) (CellEdgeLenth : Nat)
    (Shading : ℚ) (SizeX SizeY Zlevel : Nat) (p : ScreenManager × Map) : ScreenManager × Map :=
  let LoopCell := p.2.getCell SizeX SizeY Zlevel
  if p.1.MainCamera.sphereInFrustum LoopCell.Position CellEdgeLenth then
    if LoopCell.DirtyDrawlist = true then
      let DrawListID := LoopCell.DrawListID
      let dir := p.1.MainCamera.getDirection
      let p1 : ScreenManager × Map := (p.1.emit (GLCall.glDeleteLists DrawListID 4), p.2)
      let p2 : ScreenManager × Map := (p1.1.emit (GLCall.glColor3f Shading Shading Shading), p1.2)
      let p3 := RefreshDrawlist cellDraw SizeX SizeY Zlevel DrawListID
        Direction.NORTHEAST (decide (dir = Direction.NORTHEAST)) p2
      let p4 : ScreenManager × Map := (p3.1.emit (GLCall.glColor3f Shading Shading Shading), p3.2)
      let p5 := RefreshDrawlist cellDraw SizeX SizeY Zlevel (GLuintAdd DrawListID 1)
        Direction.SOUTHEAST (decide (dir = Direction.SOUTHEAST)) p4
      let p6 : ScreenManager × Map := (p5.1.emit (GLCall.glColor3f Shading Shading Shading), p5.2)
      let p7 := RefreshDrawlist cellDraw SizeX SizeY Zlevel (GLuintAdd DrawListID 2)
        Direction.SOUTHWEST (decide (dir = Direction.SOUTHWEST)) p6
      let p8 : ScreenManager × Map := (p7.1.emit (GLCall.glColor3f Shading Shading Shading), p7.2)
      let p9 := RefreshDrawlist cellDraw SizeX SizeY Zlevel (GLuintAdd DrawListID 3)
        Direction.NORTHWEST (decide (dir = Direction.NORTHWEST)) p8
      let p10 : ScreenManager × Map := (p9.1.emit (GLCall.glColor3f Shading Shading Shading), p9.2)
      (p10.1, p10.2.setCell SizeX SizeY Zlevel
        { p10.2.getCell SizeX SizeY Zlevel with DirtyDrawlist := false })
    else
      let s1 := p.1.emit (GLCall.glColor3f Shading Shading Shading)
      let s2 := s1.emit (GLCall.glCallList LoopCell.DrawListID)
      ({ s2 with TotalTriangles := s2.TotalTriangles + LoopCell.getTriangleCount }, p.2)
  else
    p

/-- The body of the `Zlevel` loop of `Render`: the shading of the level, then the
`SizeX` / `SizeY` loops when the level is at most the camera look level. -/
def renderLevel (cellDraw : Nat → Nat → Nat → Direction → List Nat) (CellEdgeLenth : Nat)
    (fuel : Nat) (Zlevel : Nat) (p : ScreenManager × Map) : Option (ScreenManager × Map) :=
  let Shading := getShading p.1 (Zlevel : ℚ)
  let p1 : ScreenManager × Map := (p.1.emit (GLCall.glColor3f Shading Shading Shading), p.2)
  if (Zlevel : ℚ) ≤ p1.1.MainCamera.LookZ then
    forLoop 4294967296 (fun q : ScreenManager × Map => q.2.getCellSizeX)
      (fun SizeX q =>
        forLoop 4294967296 (fun r : ScreenManager × Map => r.2.getCellSizeY)
          (fun SizeY r => some (visitCell cellDraw CellEdgeLenth Shading SizeX SizeY Zlevel r))
          fuel 0 q)
      fuel 0 p1
  else
    some p1

/-- Source: `bool ScreenManager::Render()`. The result is `none` when the fuel does not
suffice, otherwise the returned boolean and the world afterwards. -/
def Render (cellDraw : Nat → Nat → Nat → Direction → List Nat) (fuel : Nat) (w : World) :
    Option (Bool × World) :=
  let s0 := (w.SCREEN.emit GLCall.glClear).emit GLCall.UpdateView
  let s1 := { s0 with TotalTriangles := 0, TriangleCounter := 0 }
  match w.MAP with
  | none => some (false, { w with SCREEN := s1 })
  | some m =>
    if !m.Initialized then
      some (false, { w with SCREEN := s1 })
    else
      let s2 := if s1.FrameDraw then (s1.emit GLCall.DrawCage).emit GLCall.DrawCage else s1
      let s3 := { s2 with RedPickingValue := 0, GreenPickingValue := 0, BluePickingValue := 0 }
      let CellEdgeLenth := w.CellEdgeLength % 65536
      let s4 := (((s3.emit GLCall.glMatrixMode).emit GLCall.glLoadIdentity).emit
        GLCall.glScalef).emit GLCall.glBindTexture
      match forLoop 65536 (fun q : ScreenManager × Map => q.2.getCellSizeZ)
          (renderLevel cellDraw CellEdgeLenth fuel) fuel 0 (s4, m) with
      | none => none
      | some q =>
        let s5 := ((q.1.emit GLCall.glMatrixMode).emit GLCall.glPopMatrix).emit
          GLCall.glLoadIdentity
        some (true, { w with SCREEN := s5, MAP := some q.2 })

/-- Source: `void ScreenManager::DirtyAllLists()` -/
def DirtyAllLists (fuel : Nat) (w : World) : Option World :=
  match w.MAP with
  | none => some w
  | some m =>
    if !m.Initialized then
      some w
    else
      (forLoop 4294967296 (fun q : Map => q.getCellSizeZ)
        (fun SizeZ q =>
          forLoop 4294967296 (fun r : Map => r.getCellSizeX)
            (fun SizeX r =>
              forLoop 4294967296 (fun t : Map => t.getCellSizeY)
                (fun SizeY t => some (t.setCell SizeX SizeY SizeZ
                  { t.getCell SizeX SizeY SizeZ with DirtyDrawlist := true }))
                fuel 0 r)
            fuel 0 q)
        fuel 0 m).map (fun m' => { w with MAP := some m' })

/-- How a call of a function declared to return `bool` ends: it returns a
value, or control reaches the closing brace without a `return` statement (the
behaviour of the call is then undefined; `w` is the world at that point), or
a loop ran out of fuel. -/
inductive CallOutcome where
  | returned (value : Bool) (w : World)
  | flowsOffEnd (w : World)
  | outOfFuel

/-- Source: `bool ScreenManager::setShadedDraw(bool NewValue)`. The body is
`ShadedDraw = NewValue; DirtyAllLists();` and nothing else: the function has no
`return` statement, so every call that gets through `DirtyAllLists` flows off
the end. -/
def setShadedDraw (fuel : Nat) (NewValue : Bool) (w : World) : CallOutcome :=
  match DirtyAllLists fuel { w with SCREEN := { w.SCREEN with ShadedDraw := NewValue } } with
  | none => CallOutcome.outOfFuel
  | some w' => CallOutcome.flowsOffEnd w'

/-! ## Closed forms used to state what a frame does -/

/-- The four diagonal orientations, the ones a draw list is compiled for. -/
def Direction.isDiagonal : Direction → Bool
  | .NORTHEAST | .SOUTHEAST | .SOUTHWEST | .NORTHWEST => true
  | _ => false

/-- The calls of one `RefreshDrawlist`. -/
def refreshCalls (x y z DrawListID : Nat) (o : Direction) (Execute : Bool) : List GLCall :=
  [GLCall.glNewList DrawListID
      (if Execute then ListMode.GL_COMPILE_AND_EXECUTE else ListMode.GL_COMPILE),
    GLCall.glBegin, GLCall.CellDraw x y z o, GLCall.glEnd, GLCall.glEndList]

/-- The calls of the rebuild branch for the cell at `(x, y, z)`. -/
def rebuildCalls (dir : Direction) (Shading : ℚ) (x y z DrawListID : Nat) : List GLCall :=
  [GLCall.glDeleteLists DrawListID 4, GLCall.glColor3f Shading Shading Shading]
    ++ refreshCalls x y z DrawListID Direction.NORTHEAST (decide (dir = Direction.NORTHEAST))
    ++ [GLCall.glColor3f Shading Shading Shading]
    ++ refreshCalls x y z (GLuintAdd DrawListID 1) Direction.SOUTHEAST
        (decide (dir = Direction.SOUTHEAST))
    ++ [GLCall.glColor3f Shading Shading Shading]
    ++ refreshCalls x y z (GLuintAdd DrawListID 2) Direction.SOUTHWEST
        (decide (dir = Direction.SOUTHWEST))
    ++ [GLCall.glColor3f Shading Shading Shading]
    ++ refreshCalls x y z (GLuintAdd DrawListID 3) Direction.NORTHWEST
        (decide (dir = Direction.NORTHWEST))
    ++ [GLCall.glColor3f Shading Shading Shading]

/-- The calls of the replay branch. -/
def replayCalls (Shading : ℚ) (DrawListID : Nat) : List GLCall :=
  [GLCall.glColor3f Shading Shading Shading, GLCall.glCallList DrawListID]

/-- The calls one visit of the cell `c` at `(x, y, z)` issues. -/
def cellCalls (cam : Camera) (edge : Nat) (Shading : ℚ) (x y z : Nat) (c : Cell) : List GLCall :=
  if cam.sphereInFrustum c.Position edge then
    if c.DirtyDrawlist then rebuildCalls cam.getDirection Shading x y z c.DrawListID
    else replayCalls Shading c.DrawListID
  else []

/-- The cell `c` at `(x, y, z)` after one visit. -/
def cellAfter (cellDraw : Nat → Nat → Nat → Direction → List Nat) (cam : Camera) (edge : Nat)
    (x y z : Nat) (c : Cell) : Cell :=
  if cam.sphereInFrustum c.Position edge then
    if c.DirtyDrawlist then
      { c with
        TriangleCount := if cam.getDirection.isDiagonal then (cellDraw x y z cam.getDirection).sum
                         else c.TriangleCount,
        DirtyDrawlist := false }
    else c
  else c

/-- What one visit of the cell `c` at `(x, y, z)` adds to `TotalTriangles`. -/
def cellTriangles (cellDraw : Nat → Nat → Nat → Direction → List Nat) (cam : Camera) (edge : Nat)
    (x y z : Nat) (c : Cell) : Nat :=
  if cam.sphereInFrustum c.Position edge then
    if c.DirtyDrawlist then
      (if cam.getDirection.isDiagonal then (cellDraw x y z cam.getDirection).sum else 0)
    else c.getTriangleCount
  else 0

/-- The calls `f 0 ++ f 1 ++ ... ++ f (n - 1)`. -/
def callsUpTo (f : Nat → List GLCall) : Nat → List GLCall
  | 0 => []
  | n + 1 => callsUpTo f n ++ f n

/-- The sum `f 0 + f 1 + ... + f (n - 1)`. -/
def sumUpTo (f : Nat → Nat) : Nat → Nat
  | 0 => 0
  | n + 1 => sumUpTo f n + f n

/-- The members of the screen manager and of the map that a frame only reads. -/
def SameStatic (p q : ScreenManager × Map) : Prop :=
  q.1.MainCamera = p.1.MainCamera ∧ q.1.ShadedDraw = p.1.ShadedDraw ∧
  q.1.FrameDraw = p.1.FrameDraw ∧
  q.1.RedPickingValue = p.1.RedPickingValue ∧ q.1.GreenPickingValue = p.1.GreenPickingValue ∧
  q.1.BluePickingValue = p.1.BluePickingValue ∧
  q.2.Initialized = p.2.Initialized ∧ q.2.CellSizeX = p.2.CellSizeX ∧
  q.2.CellSizeY = p.2.CellSizeY ∧ q.2.CellSizeZ = p.2.CellSizeZ

/-- The state `q` is the state `p` after one visit of each cell in the region
`V`, with `calls` issued and `tris` added to `TotalTriangles` on the way. -/
def FrameInv (cellDraw : Nat → Nat → Nat → Direction → List Nat) (edge : Nat)
    (p : ScreenManager × Map) (V : Nat → Nat → Nat → Bool) (calls : List GLCall) (tris : Nat)
    (q : ScreenManager × Map) : Prop :=
  SameStatic p q ∧
  (∀ a b d, q.2.getCell a b d =
    if V a b d then cellAfter cellDraw p.1.MainCamera edge a b d (p.2.getCell a b d)
    else p.2.getCell a b d) ∧
  q.1.gl = p.1.gl ++ calls ∧
  q.1.TotalTriangles = p.1.TotalTriangles + tris

/-- The calls of the `SizeY` loop up to `n`, for the column `x` of level `z`. -/
def rowCalls (cam : Camera) (edge : Nat) (sh : ℚ) (m : Map) (x z n : Nat) : List GLCall :=
  callsUpTo (fun y => cellCalls cam edge sh x y z (m.getCell x y z)) n

/-- The calls of the `SizeX` loop up to `n`, for level `z`. -/
def planeCalls (cam : Camera) (edge : Nat) (sh : ℚ) (m : Map) (z n : Nat) : List GLCall :=
  callsUpTo (fun x => rowCalls cam edge sh m x z m.CellSizeY) n

/-- The calls of one iteration of the `Zlevel` loop. -/
def levelCalls (s : ScreenManager) (edge : Nat) (m : Map) (z : Nat) : List GLCall :=
  GLCall.glColor3f (getShading s (z : ℚ)) (getShading s (z : ℚ)) (getShading s (z : ℚ)) ::
    (if (z : ℚ) ≤ s.MainCamera.LookZ then
      planeCalls s.MainCamera edge (getShading s (z : ℚ)) m z m.CellSizeX
    else [])

/-- The calls of the `Zlevel` loop up to `n`. -/
def frameCalls (s : ScreenManager) (edge : Nat) (m : Map) (n : Nat) : List GLCall :=
  callsUpTo (fun z => levelCalls s edge m z) n

/-- The triangles added by the `SizeY` loop up to `n`. -/
def rowTris (cellDraw : Nat → Nat → Nat → Direction → List Nat) (cam : Camera) (edge : Nat)
    (m : Map) (x z n : Nat) : Nat :=
  sumUpTo (fun y => cellTriangles cellDraw cam edge x y z (m.getCell x y z)) n

/-- The triangles added by the `SizeX` loop up to `n`. -/
def planeTris (cellDraw : Nat → Nat → Nat → Direction → List Nat) (cam : Camera) (edge : Nat)
    (m : Map) (z n : Nat) : Nat :=
  sumUpTo (fun x => rowTris cellDraw cam edge m x z m.CellSizeY) n

/-- The triangles added by one iteration of the `Zlevel` loop. -/
def levelTris (cellDraw : Nat → Nat → Nat → Direction → List Nat) (cam : Camera) (edge : Nat)
    (m : Map) (z : Nat) : Nat :=
  if (z : ℚ) ≤ cam.LookZ then planeTris cellDraw cam edge m z m.CellSizeX else 0

/-- The triangles added by the `Zlevel` loop up to `n`. -/
def frameTris (cellDraw : Nat → Nat → Nat → Direction → List Nat) (cam : Camera) (edge : Nat)
    (m : Map) (n : Nat) : Nat :=
  sumUpTo (fun z => levelTris cellDraw cam edge m z) n

/-- The cells visited by the `SizeY` loop up to `n`. -/
def rowRegion (x z n : Nat) (a b d : Nat) : Bool :=
  decide (a = x) && decide (d = z) && decide (b < n)

/-- The cells visited by the `SizeX` loop up to `n`. -/
def planeRegion (Y z n : Nat) (a b d : Nat) : Bool :=
  decide (d = z) && decide (a < n) && decide (b < Y)

/-- The cells visited by one iteration of the `Zlevel` loop. -/
def levelRegion (cam : Camera) (X Y z : Nat) (a b d : Nat) : Bool :=
  decide (d = z) && decide ((z : ℚ) ≤ cam.LookZ) && decide (a < X) && decide (b < Y)

/-- The cells visited by the `Zlevel` loop up to `n`: those inside the map
extents whose level is below `n` and at most the camera look level. -/
def frameRegion (cam : Camera) (X Y n : Nat) (a b d : Nat) : Bool :=
  decide (d < n) && decide ((d : ℚ) ≤ cam.LookZ) && decide (a < X) && decide (b < Y)

/-- The calls of `Render` before the `Zlevel` loop. -/
def renderPrelude (s : ScreenManager) : List GLCall :=
  [GLCall.glClear, GLCall.UpdateView]
    ++ (if s.FrameDraw then [GLCall.DrawCage, GLCall.DrawCage] else [])
    ++ [GLCall.glMatrixMode, GLCall.glLoadIdentity, GLCall.glScalef, GLCall.glBindTexture]

/-- The calls of `Render` after the `Zlevel` loop. -/
def renderPostlude : List GLCall :=
  [GLCall.glMatrixMode, GLCall.glPopMatrix, GLCall.glLoadIdentity]

/-- The extents of the map are representable in the loop counters of `Render`
(`Uint16 Zlevel`, `Uint32 SizeX`, `Uint32 SizeY`) and the fuel exceeds each of
them. -/
def Map.fitsRender (m : Map) (fuel : Nat) : Prop :=
  m.CellSizeZ < 65536 ∧ m.CellSizeX < 4294967296 ∧ m.CellSizeY < 4294967296 ∧
  m.CellSizeX < fuel ∧ m.CellSizeY < fuel ∧ m.CellSizeZ < fuel

/-- The extents of the map are representable in the `Uint32` loop counters of
`DirtyAllLists` and the fuel exceeds each of them. -/
def Map.fitsDirty (m : Map) (fuel : Nat) : Prop :=
  m.CellSizeZ < 4294967296 ∧ m.CellSizeX < 4294967296 ∧ m.CellSizeY < 4294967296 ∧
  m.CellSizeX < fuel ∧ m.CellSizeY < fuel ∧ m.CellSizeZ < fuel

/-- The screen manager when `Render` enters the `Zlevel` loop. -/
def setupScreen (s : ScreenManager) : ScreenManager :=
  { s with TotalTriangles := 0, TriangleCounter := 0,
           RedPickingValue := 0, GreenPickingValue := 0, BluePickingValue := 0,
           gl := s.gl ++ renderPrelude s }

/-- The world is ready: the negation of `MAP == NULL || !MAP->Initialized`. -/
def World.ready (w : World) : Bool :=
  match w.MAP with
  | none => false
  | some m => m.Initialized

/-- The map `q` is the map `m` with the dirty flag set on every cell of the
region `V`, and nothing else changed. -/
def DirtyInv (m : Map) (V : Nat → Nat → Nat → Bool) (q : Map) : Prop :=
  q.Initialized = m.Initialized ∧ q.CellSizeX = m.CellSizeX ∧ q.CellSizeY = m.CellSizeY ∧
  q.CellSizeZ = m.CellSizeZ ∧
  ∀ a b d, q.getCell a b d =
    if V a b d then { m.getCell a b d with DirtyDrawlist := true } else m.getCell a b d

/-- The cells inside the map extents whose level is below `n`. -/
def boxRegion (X Y n : Nat) (a b d : Nat) : Bool :=
  decide (d < n) && decide (a < X) && decide (b < Y)

/-- A camera looking at level `L` with view window 4, facing `dir`, whose
frustum holds every cell. -/
def exampleCamera (L : ℚ) (dir : Direction) : Camera :=
  { LookZ := L, ViewLevels := 4, CameraDirection := dir, sphereInFrustum := fun _ _ => true }

/-- A screen manager around `exampleCamera`, with an empty command stream. -/
def exampleScreen (L : ℚ) (dir : Direction) : ScreenManager :=
  { FrameDraw := true, ShadedDraw := false, TotalTriangles := 0, TriangleCounter := 0,
    RedPickingValue := 0, GreenPickingValue := 0, BluePickingValue := 0,
    MainCamera := exampleCamera L dir, gl := [] }

/-- An initialized map of `2 × 1 × 1` cells: the cell at `(0, 0, 0)` has draw
lists 10..13, dirty flag `dirty0` and cached count 5, every other cell has draw
lists 20..23, is clean and has cached count 8. -/
def exampleMap (dirty0 : Bool) : Map :=
  { Initialized := true, CellSizeX := 2, CellSizeY := 1, CellSizeZ := 1,
    cells := fun a b d =>
      if a = 0 ∧ b = 0 ∧ d = 0 then
        { Position := ⟨0, 0, 0⟩, DrawListID := 10, DirtyDrawlist := dirty0, TriangleCount := 5 }
      else
        { Position := ⟨16, 0, 0⟩, DrawListID := 20, DirtyDrawlist := false, TriangleCount := 8 } }

/-- A ready world: `exampleMap dirty0` under a camera looking at level 0 and
facing `dir`. -/
def exampleWorld (dirty0 : Bool) (dir : Direction) : World :=
  { SCREEN := exampleScreen 0 dir, MAP := some (exampleMap dirty0), CellEdgeLength := 16 }

/-- A world without a map. -/
def emptyWorld : World :=
  { SCREEN := exampleScreen 0 Direction.NORTHEAST, MAP := none, CellEdgeLength := 16 }

/-- A geometry in which `Draw(o)` reports `[2, 4]` triangles for `NORTHEAST` and
`[1]` for every other orientation, on every cell. -/
def exampleDraw (_x _y _z : Nat) (o : Direction) : List Nat :=
  if o = Direction.NORTHEAST then [2, 4] else [1]

/-- What can happen to the world between two frames: a `Render` call (with
the geometry of the world at that time), a `DirtyAllLists` call, a camera
move, or a terrain edit marking the cell at `(x, y, z)` dirty. -/
inductive FrameOp where
  | render (cellDraw : Nat → Nat → Nat → Direction → List Nat)
  | dirtyAllLists
  | setCamera (cam : Camera)
  | markDirty (x y z : Nat)

/-- Perform one operation; `none` when a loop runs out of fuel. -/
def FrameOp.perform (fuel : Nat) (w : World) : FrameOp → Option World
  | .render cellDraw => (Render cellDraw fuel w).map (fun r => r.2)
  | .dirtyAllLists => DirtyAllLists fuel w
  | .setCamera cam => some { w with SCREEN := { w.SCREEN with MainCamera := cam } }
  | .markDirty x y z =>
    some { w with MAP := w.MAP.map (fun m =>
      m.setCell x y z { m.getCell x y z with DirtyDrawlist := true }) }

/-- Perform a sequence of operations, first operation first. -/
def performOps (fuel : Nat) : World → List FrameOp → Option World
  | w, [] => some w
  | w, op :: ops => (op.perform fuel w).bind (fun w' => performOps fuel w' ops)

/-- A `Render` call in the world `w` takes the rebuild branch at the cell
`(x, y, z)`: the world is ready, the cell is inside the map extents with its
level at most the camera look level, it passes the frustum test and is dirty. -/
def World.rebuilds (w : World) (x y z : Nat) : Bool :=
  match w.MAP with
  | none => false
  | some m =>
    m.Initialized &&
    frameRegion w.SCREEN.MainCamera m.CellSizeX m.CellSizeY m.CellSizeZ x y z &&
    w.SCREEN.MainCamera.sphereInFrustum (m.getCell x y z).Position (w.CellEdgeLength % 65536) &&
    (m.getCell x y z).DirtyDrawlist

/-- No `Render` call of the sequence rebuilds the cell `(x, y, z)`. -/
def noRebuildBetween (fuel : Nat) (x y z : Nat) : World → List FrameOp → Prop
  | _, [] => True
  | w, op :: ops =>
    (match op with
      | .render _ => w.rebuilds x y z = false
      | _ => True) ∧
    (match op.perform fuel w with
      | some w' => noRebuildBetween fuel x y z w' ops
      | none => True)

/-- The world holds an initialized map of the given extents in which the cell
`(x, y, z)` has the cached triangle count `k`. -/
def CountInv (X Y Z : Nat) (x y z k : Nat) (w : World) : Prop :=
  ∃ m, w.MAP = some m ∧ m.Initialized = true ∧ m.CellSizeX = X ∧ m.CellSizeY = Y ∧
    m.CellSizeZ = Z ∧ (m.getCell x y z).TriangleCount = k

/-! ## Properties of the cube flags -/

theorem perform_exclusive (c : Cube) (call : CubeCall) :
    ((call.perform c).isSolid = true → (call.perform c).isLiquid = false) ∧
    ((call.perform c).isLiquid = true → (call.perform c).isSolid = false) := by
  cases call with
  | setSolid v => cases v <;> simp [CubeCall.perform, Cube.setSolid, Cube.isSolid, Cube.isLiquid]
  | setLiquid v => cases v <;> simp [CubeCall.perform, Cube.setLiquid, Cube.isSolid, Cube.isLiquid]

theorem performCalls_snoc (c : Cube) (calls : List CubeCall) (call : CubeCall) :
    performCalls c (calls ++ [call]) = call.perform (performCalls c calls) := by
  simp [performCalls, List.foldl_append]

/-- C1. Solid/liquid mutual exclusion: from a cube whose flags are not both
true, every finite sequence of `setSolid` / `setLiquid` calls ends in a state
where `isSolid()` implies not `isLiquid()` and `isLiquid()` implies not
`isSolid()`; and one `setSolid` or `setLiquid` call establishes this from any
prior state whatever. -/
theorem cube_solid_liquid_exclusive :
    (∀ (c : Cube) (calls : List CubeCall), ¬ (c.Solid = true ∧ c.Liquid = true) →
      ((performCalls c calls).isSolid = true → (performCalls c calls).isLiquid = false) ∧
      ((performCalls c calls).isLiquid = true → (performCalls c calls).isSolid = false)) ∧
    (∀ (c : Cube) (v : Bool),
      ((c.setSolid v).isSolid = true → (c.setSolid v).isLiquid = false) ∧
      ((c.setSolid v).isLiquid = true → (c.setSolid v).isSolid = false) ∧
      ((c.setLiquid v).isSolid = true → (c.setLiquid v).isLiquid = false) ∧
      ((c.setLiquid v).isLiquid = true → (c.setLiquid v).isSolid = false)) := by
  refine ⟨?_, ?_⟩
  · intro c calls hc
    induction calls using List.reverseRecOn with
    | nil =>
      obtain ⟨s, l, mat⟩ := c
      cases s <;> cases l <;> simp_all [performCalls, Cube.isSolid, Cube.isLiquid]
    | append_singleton calls call _ =>
      rw [performCalls_snoc]
      exact perform_exclusive _ call
  · intro c v
    cases v <;> simp [Cube.setSolid, Cube.setLiquid, Cube.isSolid, Cube.isLiquid]

/-- Witness of C1: a solid cube put through four setter calls. -/
theorem cube_solid_liquid_exclusive_witness :
    ¬ ((Cube.mk true false 7).Solid = true ∧ (Cube.mk true false 7).Liquid = true) ∧
    ((performCalls (Cube.mk true false 7)
        [.setLiquid true, .setSolid false, .setLiquid false, .setSolid true]).isSolid = true →
      (performCalls (Cube.mk true false 7)
        [.setLiquid true, .setSolid false, .setLiquid false, .setSolid true]).isLiquid = false) :=
  ⟨by decide,
   (cube_solid_liquid_exclusive.1 (Cube.mk true false 7)
      [.setLiquid true, .setSolid false, .setLiquid false, .setSolid true] (by decide)).1⟩

/-- C2, counterexample: `setSolid(false)` on a solid cube leaves `isLiquid()`
true, so the complementary flag is not cleared and the cube is not empty. -/
theorem setSolid_false_not_empty :
    ¬ (∀ (c : Cube) (v : Bool), (c.setSolid v).isSolid = v ∧ (c.setSolid v).isLiquid = false) := by
  intro h
  have := (h (Cube.mk true false 0) false).2
  simp [Cube.setSolid, Cube.isLiquid] at this

/-- C2, amended. For every cube and every boolean `v`, `setSolid(v)` sets the
solid flag to `v` and the liquid flag to `!v`, and `setLiquid(v)` sets the liquid
flag to `v` and the solid flag to `!v`; the material is untouched. So the
complementary flag is cleared exactly by a call with `v = true`, and
`setSolid(false)` leaves the cube liquid. -/
theorem setter_postcondition (c : Cube) (v : Bool) :
    (c.setSolid v).isSolid = v ∧ (c.setSolid v).isLiquid = !v ∧
    (c.setLiquid v).isLiquid = v ∧ (c.setLiquid v).isSolid = !v ∧
    (c.setSolid true).isLiquid = false ∧ (c.setLiquid true).isSolid = false ∧
    (c.setSolid false).isLiquid = true ∧ (c.setLiquid false).isSolid = true ∧
    (c.setSolid v).Material = c.Material ∧ (c.setLiquid v).Material = c.Material := by
  simp [Cube.setSolid, Cube.setLiquid, Cube.isSolid, Cube.isLiquid]

/-! ## Properties of `getShading` -/

/-- C6. Linear, strictly decreasing fade (exact arithmetic): with shading
enabled, look level `L` and view window `V`, `getShading z = 1 - (L - z) / V`
whenever `0 < L - z < V`, and `getShading z1 < getShading z2` whenever
`z1 < z2 ≤ L` and `L - z1 < V`. -/
theorem getShading_linear_fade (s : ScreenManager) (hs : s.ShadedDraw = true) :
    (∀ z : ℚ, 0 < s.MainCamera.LookZ - z → s.MainCamera.LookZ - z < s.MainCamera.getViewLevels →
      getShading s z = 1 - (s.MainCamera.LookZ - z) / s.MainCamera.getViewLevels) ∧
    (∀ z1 z2 : ℚ, z1 < z2 → z2 ≤ s.MainCamera.LookZ →
      s.MainCamera.LookZ - z1 < s.MainCamera.getViewLevels →
      getShading s z1 < getShading s z2) := by
  refine ⟨?_, ?_⟩
  · intro z h0 hV
    have hz : z ≤ s.MainCamera.LookZ := by linarith
    simp [getShading, hs, hz, hV, h0]
  · intro z1 z2 h12 h2L hV
    have hz1 : z1 ≤ s.MainCamera.LookZ := by linarith
    have hd1 : 0 < s.MainCamera.LookZ - z1 := by linarith
    have hV2 : s.MainCamera.LookZ - z2 < s.MainCamera.getViewLevels := by linarith
    have hVpos : 0 < s.MainCamera.getViewLevels := by linarith
    have hlt : (s.MainCamera.LookZ - z2) / s.MainCamera.getViewLevels <
        (s.MainCamera.LookZ - z1) / s.MainCamera.getViewLevels :=
      div_lt_div_of_pos_right (by linarith) hVpos
    have hpos : 0 < (s.MainCamera.LookZ - z1) / s.MainCamera.getViewLevels := div_pos hd1 hVpos
    simp only [getShading, hs, hz1, h2L, hV, hV2, hd1]
    by_cases hd2 : s.MainCamera.LookZ - z2 > 0
    · simp [hd2]; linarith
    · simp [hd2]; linarith

/-- Witness of C6: look level 10, view window 4, levels 7 and 8. -/
theorem getShading_linear_fade_witness :
    (shadingScreen true 10 4).ShadedDraw = true ∧
    getShading (shadingScreen true 10 4) 7 =
      1 - ((shadingScreen true 10 4).MainCamera.LookZ - 7) /
        (shadingScreen true 10 4).MainCamera.getViewLevels ∧
    getShading (shadingScreen true 10 4) 7 < getShading (shadingScreen true 10 4) 8 :=
  ⟨rfl,
   (getShading_linear_fade (shadingScreen true 10 4) rfl).1 7
    (by norm_num [shadingScreen]) (by norm_num [shadingScreen, Camera.getViewLevels]),
   (getShading_linear_fade (shadingScreen true 10 4) rfl).2 7 8
    (by norm_num) (by norm_num [shadingScreen]) (by norm_num [shadingScreen, Camera.getViewLevels])⟩

/-- C7, counterexample: with shading enabled, look level 5 and a view window of
0 levels, `getShading` returns 0, not 1, at the look level itself. -/
theorem getShading_look_level_zero_window :
    (shadingScreen true 5 0).ShadedDraw = true ∧ getShading (shadingScreen true 5 0) 5 = 0 ∧
    getShading (shadingScreen true 5 0) 5 ≠ 1 := by
  have h : getShading (shadingScreen true 5 0) 5 = 0 := by
    simp [getShading, shadingScreen, Camera.getViewLevels]
  exact ⟨rfl, h, by rw [h]; norm_num⟩

/-- C7, amended. Full intensity at the look level: with shading enabled, for
every look level `L` and every view window `V > 0`, `getShading z = 1` when
`z = L`. -/
theorem getShading_look_level (s : ScreenManager) (hs : s.ShadedDraw = true)
    (hV : 0 < s.MainCamera.getViewLevels) (z : ℚ) (hz : z = s.MainCamera.LookZ) :
    getShading s z = 1 := by
  subst hz
  simp [getShading, hs, hV]

/-- Witness of C7 (amended): look level 5, view window 3. -/
theorem getShading_look_level_witness :
    (shadingScreen true 5 3).ShadedDraw = true ∧
    0 < (shadingScreen true 5 3).MainCamera.getViewLevels ∧
    getShading (shadingScreen true 5 3) 5 = 1 :=
  ⟨rfl, by norm_num [shadingScreen, Camera.getViewLevels],
   getShading_look_level (shadingScreen true 5 3) rfl
     (by norm_num [shadingScreen, Camera.getViewLevels]) 5 rfl⟩

/-- C8. Zero intensity outside the view window: with shading enabled, for every
look level `L`, view window `V` and level `z`, `getShading z = 0` whenever
`L - z ≥ V` or `z > L`. -/
theorem getShading_outside_window (s : ScreenManager) (hs : s.ShadedDraw = true) (z : ℚ)
    (hz : s.MainCamera.LookZ - z ≥ s.MainCamera.getViewLevels ∨ z > s.MainCamera.LookZ) :
    getShading s z = 0 := by
  rcases hz with h | h
  · have hn : ¬ (s.MainCamera.LookZ - z < s.MainCamera.getViewLevels) := not_lt.mpr h
    simp [getShading, hs, hn]
  · have hn : ¬ (z ≤ s.MainCamera.LookZ) := not_le.mpr h
    simp [getShading, hs, hn]

/-- Witness of C8: look level 10, view window 4, level 6 (depth 4). -/
theorem getShading_outside_window_witness :
    (shadingScreen true 10 4).ShadedDraw = true ∧
    ((shadingScreen true 10 4).MainCamera.LookZ - 6 ≥ (shadingScreen true 10 4).MainCamera.getViewLevels ∨
      (6 : ℚ) > (shadingScreen true 10 4).MainCamera.LookZ) ∧
    getShading (shadingScreen true 10 4) 6 = 0 :=
  ⟨rfl, Or.inl (by norm_num [shadingScreen, Camera.getViewLevels]),
   getShading_outside_window (shadingScreen true 10 4) rfl 6
     (Or.inl (by norm_num [shadingScreen, Camera.getViewLevels]))⟩

/-! ## The render pass: one visit -/

theorem foldl_IncrementTriangles (l : List Nat) (s : ScreenManager) :
    l.foldl IncrementTriangles s = { s with TriangleCounter := s.TriangleCounter + l.sum } := by
  induction l generalizing s with
  | nil => simp
  | cons a l ih => simp [ih, IncrementTriangles, Nat.add_assoc]

theorem RefreshDrawlist_fst (cellDraw : Nat → Nat → Nat → Direction → List Nat) (x y z id : Nat)
    (o : Direction) (e : Bool) (p : ScreenManager × Map) :
    (RefreshDrawlist cellDraw x y z id o e p).1 =
      { p.1 with
        gl := p.1.gl ++ refreshCalls x y z id o e,
        TriangleCounter := (cellDraw x y z o).sum,
        TotalTriangles := p.1.TotalTriangles + (if e then (cellDraw x y z o).sum else 0) } := by
  cases e <;>
    simp [RefreshDrawlist, foldl_IncrementTriangles, ScreenManager.emit, refreshCalls]

theorem RefreshDrawlist_snd (cellDraw : Nat → Nat → Nat → Direction → List Nat) (x y z id : Nat)
    (o : Direction) (e : Bool) (p : ScreenManager × Map) :
    (RefreshDrawlist cellDraw x y z id o e p).2 =
      if e then p.2.setCell x y z ((p.2.getCell x y z).setTriangleCount (cellDraw x y z o).sum)
      else p.2 := by
  cases e <;>
    simp [RefreshDrawlist, foldl_IncrementTriangles, ScreenManager.emit]

theorem visitCell_static (cellDraw : Nat → Nat → Nat → Direction → List Nat) (edge : Nat)
    (sh : ℚ) (x y z : Nat) (p : ScreenManager × Map) :
    SameStatic p (visitCell cellDraw edge sh x y z p) := by
  unfold visitCell
  by_cases hf : p.1.MainCamera.sphereInFrustum (p.2.getCell x y z).Position edge = true
  · by_cases hd : (p.2.getCell x y z).DirtyDrawlist = true
    · simp only [hf, hd, if_true, RefreshDrawlist_fst, RefreshDrawlist_snd]
      cases p.1.MainCamera.getDirection <;>
        simp [SameStatic, ScreenManager.emit, Map.setCell]
    · simp [hf, hd, SameStatic, ScreenManager.emit]
  · simp [hf, SameStatic]

theorem visitCell_gl (cellDraw : Nat → Nat → Nat → Direction → List Nat) (edge : Nat)
    (sh : ℚ) (x y z : Nat) (p : ScreenManager × Map) :
    (visitCell cellDraw edge sh x y z p).1.gl =
      p.1.gl ++ cellCalls p.1.MainCamera edge sh x y z (p.2.getCell x y z) := by
  unfold visitCell cellCalls
  by_cases hf : p.1.MainCamera.sphereInFrustum (p.2.getCell x y z).Position edge = true
  · by_cases hd : (p.2.getCell x y z).DirtyDrawlist = true
    · simp only [hf, hd, if_true, RefreshDrawlist_fst, RefreshDrawlist_snd]
      simp [ScreenManager.emit, rebuildCalls, List.append_assoc]
    · simp [hf, hd, ScreenManager.emit, replayCalls]
  · simp [hf]

theorem visitCell_total (cellDraw : Nat → Nat → Nat → Direction → List Nat) (edge : Nat)
    (sh : ℚ) (x y z : Nat) (p : ScreenManager × Map) :
    (visitCell cellDraw edge sh x y z p).1.TotalTriangles =
      p.1.TotalTriangles + cellTriangles cellDraw p.1.MainCamera edge x y z (p.2.getCell x y z) := by
  unfold visitCell cellTriangles
  by_cases hf : p.1.MainCamera.sphereInFrustum (p.2.getCell x y z).Position edge = true
  · by_cases hd : (p.2.getCell x y z).DirtyDrawlist = true
    · simp only [hf, hd, if_true, RefreshDrawlist_fst, RefreshDrawlist_snd]
      cases hdir : p.1.MainCamera.getDirection <;>
        simp [ScreenManager.emit, Direction.isDiagonal]
    · simp [hf, hd, ScreenManager.emit]
  · simp [hf]

theorem visitCell_cells (cellDraw : Nat → Nat → Nat → Direction → List Nat) (edge : Nat)
    (sh : ℚ) (x y z : Nat) (p : ScreenManager × Map) (a b d : Nat) :
    (visitCell cellDraw edge sh x y z p).2.getCell a b d =
      if a = x ∧ b = y ∧ d = z then
        cellAfter cellDraw p.1.MainCamera edge x y z (p.2.getCell x y z)
      else p.2.getCell a b d := by
  unfold visitCell cellAfter
  by_cases hf : p.1.MainCamera.sphereInFrustum (p.2.getCell x y z).Position edge = true
  · by_cases hd : (p.2.getCell x y z).DirtyDrawlist = true
    · simp only [hf, hd, if_true, RefreshDrawlist_fst, RefreshDrawlist_snd]
      by_cases hc : a = x ∧ b = y ∧ d = z
      · cases hdir : p.1.MainCamera.getDirection <;>
          simp [ScreenManager.emit, Direction.isDiagonal, Map.setCell, Map.getCell,
            Cell.setTriangleCount, hc]
      · cases hdir : p.1.MainCamera.getDirection <;>
          simp [ScreenManager.emit, Direction.isDiagonal, Map.setCell, Map.getCell,
            Cell.setTriangleCount, hc]
    · by_cases hc : a = x ∧ b = y ∧ d = z
      · obtain ⟨rfl, rfl, rfl⟩ := hc
        simp [hf, hd]
      · simp [hf, hd, hc]
  · by_cases hc : a = x ∧ b = y ∧ d = z
    · obtain ⟨rfl, rfl, rfl⟩ := hc
      simp [hf]
    · simp [hf, hc]

/-! ## Counted loops -/

/-- Invariant rule for `forLoop`: when the bound `B` is representable in the
counter and the fuel exceeds the number of iterations left, the loop returns
and the invariant holds at `B`. -/
theorem forLoop_rule {σ : Type} (modulus B : Nat) (bound : σ → Nat) (body : Nat → σ → Option σ)
    (Inv : Nat → σ → Prop) (hB : B < modulus)
    (hbound : ∀ i s, Inv i s → bound s = B)
    (hstep : ∀ i s, i < B → Inv i s → ∃ s', body i s = some s' ∧ Inv (i + 1) s') :
    ∀ (n fuel i : Nat) (s : σ), i + n = B → n < fuel → Inv i s →
      ∃ s', forLoop modulus bound body fuel i s = some s' ∧ Inv B s' := by
  intro n
  induction n with
  | zero =>
    intro fuel i s hi hf hinv
    obtain ⟨f, rfl⟩ : ∃ f, fuel = f + 1 := ⟨fuel - 1, by omega⟩
    have hiB : i = B := by omega
    subst hiB
    refine ⟨s, ?_, hinv⟩
    simp [forLoop, hbound _ _ hinv]
  | succ n ih =>
    intro fuel i s hi hf hinv
    obtain ⟨f, rfl⟩ : ∃ f, fuel = f + 1 := ⟨fuel - 1, by omega⟩
    have hiB : i < B := by omega
    obtain ⟨s1, hs1, hinv1⟩ := hstep i s hiB hinv
    have hmod : (i + 1) % modulus = i + 1 := Nat.mod_eq_of_lt (by omega)
    obtain ⟨s2, hs2, hinv2⟩ := ih f (i + 1) s1 (by omega) (by omega) hinv1
    refine ⟨s2, ?_, hinv2⟩
    simp [forLoop, hbound _ _ hinv, hiB, hs1, hmod, hs2]

/-- A loop whose bound is not representable in its counter never returns. -/
theorem forLoop_diverges {σ : Type} (modulus B : Nat) (bound : σ → Nat)
    (body : Nat → σ → Option σ) (Inv : σ → Prop) (hB : modulus ≤ B) (hm : 0 < modulus)
    (hbound : ∀ s, Inv s → bound s = B)
    (hstep : ∀ i s s', Inv s → body i s = some s' → Inv s') :
    ∀ (fuel i : Nat) (s : σ), i < modulus → Inv s → forLoop modulus bound body fuel i s = none := by
  intro fuel
  induction fuel with
  | zero => intro i s _ _; rfl
  | succ f ih =>
    intro i s hi hinv
    have hiB : i < B := by omega
    simp only [forLoop, hbound _ hinv, hiB, if_true]
    cases hb : body i s with
    | none => rfl
    | some s' =>
      simp only [Option.bind]
      exact ih _ _ (Nat.mod_lt _ hm) (hstep i s s' hinv hb)

/-! ## Composition of visits -/

theorem callsUpTo_congr (f g : Nat → List GLCall) (n : Nat) (h : ∀ i, i < n → f i = g i) :
    callsUpTo f n = callsUpTo g n := by
  induction n with
  | zero => rfl
  | succ n ih =>
    simp only [callsUpTo]
    rw [ih (fun i hi => h i (by omega)), h n (by omega)]

theorem sumUpTo_congr (f g : Nat → Nat) (n : Nat) (h : ∀ i, i < n → f i = g i) :
    sumUpTo f n = sumUpTo g n := by
  induction n with
  | zero => rfl
  | succ n ih =>
    simp only [sumUpTo]
    rw [ih (fun i hi => h i (by omega)), h n (by omega)]

theorem mem_callsUpTo (f : Nat → List GLCall) (n : Nat) (c : GLCall) :
    c ∈ callsUpTo f n ↔ ∃ i, i < n ∧ c ∈ f i := by
  induction n with
  | zero => simp [callsUpTo]
  | succ n ih =>
    simp only [callsUpTo, List.mem_append, ih]
    constructor
    · rintro (⟨i, hi, hc⟩ | hc)
      · exact ⟨i, by omega, hc⟩
      · exact ⟨n, by omega, hc⟩
    · rintro ⟨i, hi, hc⟩
      by_cases hin : i = n
      · subst hin; exact Or.inr hc
      · exact Or.inl ⟨i, by omega, hc⟩

theorem SameStatic.static_refl (p : ScreenManager × Map) : SameStatic p p := by
  simp [SameStatic]

theorem SameStatic.static_trans {p q r : ScreenManager × Map} (h1 : SameStatic p q)
    (h2 : SameStatic q r) : SameStatic p r := by
  obtain ⟨a1, a2, a3, a4, a5, a6, a7, a8, a9, a10⟩ := h1
  obtain ⟨b1, b2, b3, b4, b5, b6, b7, b8, b9, b10⟩ := h2
  exact ⟨b1.trans a1, b2.trans a2, b3.trans a3, b4.trans a4, b5.trans a5, b6.trans a6,
    b7.trans a7, b8.trans a8, b9.trans a9, b10.trans a10⟩

theorem FrameInv.frame_refl (cellDraw : Nat → Nat → Nat → Direction → List Nat) (edge : Nat)
    (p : ScreenManager × Map) : FrameInv cellDraw edge p (fun _ _ _ => false) [] 0 p := by
  simp [FrameInv, SameStatic.static_refl]

theorem FrameInv.cell_eq {cellDraw : Nat → Nat → Nat → Direction → List Nat} {edge : Nat}
    {p q : ScreenManager × Map} {V : Nat → Nat → Nat → Bool} {calls : List GLCall} {tris : Nat}
    (h : FrameInv cellDraw edge p V calls tris q) (a b d : Nat) (hV : V a b d = false) :
    q.2.getCell a b d = p.2.getCell a b d := by
  rw [h.2.1 a b d]; simp [hV]

theorem FrameInv.frame_trans {cellDraw : Nat → Nat → Nat → Direction → List Nat} {edge : Nat}
    {p q r : ScreenManager × Map} {V1 V2 V : Nat → Nat → Nat → Bool} {c1 c2 : List GLCall}
    {t1 t2 : Nat}
    (h1 : FrameInv cellDraw edge p V1 c1 t1 q) (h2 : FrameInv cellDraw edge q V2 c2 t2 r)
    (hdisj : ∀ a b d, V2 a b d = true → V1 a b d = false)
    (hV : ∀ a b d, V a b d = (V1 a b d || V2 a b d)) :
    FrameInv cellDraw edge p V (c1 ++ c2) (t1 + t2) r := by
  refine ⟨h1.1.static_trans h2.1, ?_, ?_, ?_⟩
  · intro a b d
    rw [h2.2.1 a b d, hV a b d, h1.1.1]
    by_cases h2V : V2 a b d = true
    · have h1V := hdisj a b d h2V
      rw [h1.cell_eq a b d h1V]
      simp [h2V]
    · have h2V' : V2 a b d = false := by simpa using h2V
      rw [h1.2.1 a b d]
      simp [h2V']
  · rw [h2.2.2.1, h1.2.2.1, List.append_assoc]
  · rw [h2.2.2.2, h1.2.2.2, Nat.add_assoc]

theorem visitCell_frameInv (cellDraw : Nat → Nat → Nat → Direction → List Nat) (edge : Nat)
    (sh : ℚ) (x y z : Nat) (p : ScreenManager × Map) :
    FrameInv cellDraw edge p (fun a b d => decide (a = x) && decide (b = y) && decide (d = z))
      (cellCalls p.1.MainCamera edge sh x y z (p.2.getCell x y z))
      (cellTriangles cellDraw p.1.MainCamera edge x y z (p.2.getCell x y z))
      (visitCell cellDraw edge sh x y z p) := by
  refine ⟨visitCell_static _ _ _ _ _ _ _, ?_, visitCell_gl _ _ _ _ _ _ _,
    visitCell_total _ _ _ _ _ _ _⟩
  intro a b d
  rw [visitCell_cells]
  by_cases hc : a = x ∧ b = y ∧ d = z
  · obtain ⟨rfl, rfl, rfl⟩ := hc
    simp
  · have : (decide (a = x) && decide (b = y) && decide (d = z)) = false := by
      simpa [and_assoc] using hc
    simp [hc, this]

theorem FrameInv.frame_of_eq {cellDraw : Nat → Nat → Nat → Direction → List Nat} {edge : Nat}
    {p q : ScreenManager × Map} {V V' : Nat → Nat → Nat → Bool} {c c' : List GLCall}
    {t t' : Nat} (h : FrameInv cellDraw edge p V c t q)
    (hV : ∀ a b d, V' a b d = V a b d) (hc : c' = c) (ht : t' = t) :
    FrameInv cellDraw edge p V' c' t' q := by
  subst hc ht
  refine ⟨h.1, ?_, h.2.2.1, h.2.2.2⟩
  intro a b d
  rw [hV a b d]
  exact h.2.1 a b d

/-! ## The render pass: the three loops -/

theorem row_loop (cellDraw : Nat → Nat → Nat → Direction → List Nat) (edge : Nat) (sh : ℚ)
    (x z : Nat) (p : ScreenManager × Map) (fuel : Nat)
    (hY : p.2.CellSizeY < 4294967296) (hf : p.2.CellSizeY < fuel) :
    ∃ q, forLoop 4294967296 (fun r : ScreenManager × Map => r.2.getCellSizeY)
        (fun SizeY r => some (visitCell cellDraw edge sh x SizeY z r)) fuel 0 p = some q ∧
      FrameInv cellDraw edge p (rowRegion x z p.2.CellSizeY)
        (rowCalls p.1.MainCamera edge sh p.2 x z p.2.CellSizeY)
        (rowTris cellDraw p.1.MainCamera edge p.2 x z p.2.CellSizeY) q := by
  apply forLoop_rule 4294967296 p.2.CellSizeY _ _
    (fun i q => FrameInv cellDraw edge p (rowRegion x z i)
      (rowCalls p.1.MainCamera edge sh p.2 x z i)
      (rowTris cellDraw p.1.MainCamera edge p.2 x z i) q) hY
  · intro i q h
    exact h.1.2.2.2.2.2.2.2.2.1
  · intro i q hi h1
    refine ⟨_, rfl, ?_⟩
    have h2 := visitCell_frameInv cellDraw edge sh x i z q
    rw [h1.1.1, h1.cell_eq x i z (by simp [rowRegion])] at h2
    refine FrameInv.frame_trans h1 h2 ?_ ?_
    · intro a b d hV
      simp only [Bool.and_eq_true, decide_eq_true_eq] at hV
      obtain ⟨⟨rfl, rfl⟩, rfl⟩ := hV
      simp [rowRegion]
    · intro a b d
      rw [Bool.eq_iff_iff]
      simp only [rowRegion, Bool.and_eq_true, Bool.or_eq_true, decide_eq_true_eq]
      constructor
      · rintro ⟨⟨ha, hd⟩, hb⟩
        by_cases hbi : b = i
        · exact Or.inr ⟨⟨ha, hbi⟩, hd⟩
        · exact Or.inl ⟨⟨ha, hd⟩, by omega⟩
      · rintro (⟨⟨ha, hd⟩, hb⟩ | ⟨⟨ha, hb⟩, hd⟩)
        · exact ⟨⟨ha, hd⟩, by omega⟩
        · exact ⟨⟨ha, hd⟩, by omega⟩
  · exact Nat.zero_add _
  · exact hf
  · exact (FrameInv.frame_refl cellDraw edge p).frame_of_eq (by intro a b d; simp [rowRegion]) rfl rfl

theorem rowCalls_congr (cam : Camera) (edge : Nat) (sh : ℚ) (m m' : Map) (x z n : Nat)
    (h : ∀ y, y < n → m'.getCell x y z = m.getCell x y z) :
    rowCalls cam edge sh m' x z n = rowCalls cam edge sh m x z n :=
  callsUpTo_congr _ _ n (fun y hy => by rw [h y hy])

theorem rowTris_congr (cellDraw : Nat → Nat → Nat → Direction → List Nat) (cam : Camera)
    (edge : Nat) (m m' : Map) (x z n : Nat)
    (h : ∀ y, y < n → m'.getCell x y z = m.getCell x y z) :
    rowTris cellDraw cam edge m' x z n = rowTris cellDraw cam edge m x z n :=
  sumUpTo_congr _ _ n (fun y hy => by rw [h y hy])

theorem planeCalls_congr (cam : Camera) (edge : Nat) (sh : ℚ) (m m' : Map) (z n : Nat)
    (hY : m'.CellSizeY = m.CellSizeY)
    (h : ∀ x y, x < n → y < m.CellSizeY → m'.getCell x y z = m.getCell x y z) :
    planeCalls cam edge sh m' z n = planeCalls cam edge sh m z n := by
  unfold planeCalls
  rw [hY]
  exact callsUpTo_congr _ _ n (fun x hx => rowCalls_congr _ _ _ _ _ _ _ _ (fun y hy => h x y hx hy))

theorem planeTris_congr (cellDraw : Nat → Nat → Nat → Direction → List Nat) (cam : Camera)
    (edge : Nat) (m m' : Map) (z n : Nat) (hY : m'.CellSizeY = m.CellSizeY)
    (h : ∀ x y, x < n → y < m.CellSizeY → m'.getCell x y z = m.getCell x y z) :
    planeTris cellDraw cam edge m' z n = planeTris cellDraw cam edge m z n := by
  unfold planeTris
  rw [hY]
  exact sumUpTo_congr _ _ n (fun x hx => rowTris_congr _ _ _ _ _ _ _ _ (fun y hy => h x y hx hy))

theorem plane_loop (cellDraw : Nat → Nat → Nat → Direction → List Nat) (edge : Nat) (sh : ℚ)
    (z : Nat) (p : ScreenManager × Map) (fuel : Nat)
    (hX : p.2.CellSizeX < 4294967296) (hY : p.2.CellSizeY < 4294967296)
    (hfX : p.2.CellSizeX < fuel) (hfY : p.2.CellSizeY < fuel) :
    ∃ q, forLoop 4294967296 (fun r : ScreenManager × Map => r.2.getCellSizeX)
        (fun SizeX r =>
          forLoop 4294967296 (fun t : ScreenManager × Map => t.2.getCellSizeY)
            (fun SizeY t => some (visitCell cellDraw edge sh SizeX SizeY z t)) fuel 0 r)
        fuel 0 p = some q ∧
      FrameInv cellDraw edge p (planeRegion p.2.CellSizeY z p.2.CellSizeX)
        (planeCalls p.1.MainCamera edge sh p.2 z p.2.CellSizeX)
        (planeTris cellDraw p.1.MainCamera edge p.2 z p.2.CellSizeX) q := by
  apply forLoop_rule 4294967296 p.2.CellSizeX _ _
    (fun i q => FrameInv cellDraw edge p (planeRegion p.2.CellSizeY z i)
      (planeCalls p.1.MainCamera edge sh p.2 z i)
      (planeTris cellDraw p.1.MainCamera edge p.2 z i) q) hX
  · intro i q h
    exact h.1.2.2.2.2.2.2.2.1
  · intro i q hi h1
    have hqY : q.2.CellSizeY = p.2.CellSizeY := h1.1.2.2.2.2.2.2.2.2.1
    obtain ⟨r, hr, h2⟩ := row_loop cellDraw edge sh i z q fuel (by omega) (by omega)
    refine ⟨r, hr, ?_⟩
    have hcell : ∀ y, y < p.2.CellSizeY → q.2.getCell i y z = p.2.getCell i y z :=
      fun y _ => h1.cell_eq i y z (by simp [planeRegion])
    rw [hqY, h1.1.1, rowCalls_congr _ _ _ _ _ _ _ _ hcell,
      rowTris_congr _ _ _ _ _ _ _ _ hcell] at h2
    refine FrameInv.frame_trans h1 h2 ?_ ?_
    · intro a b d hV
      simp only [rowRegion, Bool.and_eq_true, decide_eq_true_eq] at hV
      obtain ⟨⟨rfl, rfl⟩, _⟩ := hV
      simp [planeRegion]
    · intro a b d
      rw [Bool.eq_iff_iff]
      simp only [planeRegion, rowRegion, Bool.and_eq_true, Bool.or_eq_true, decide_eq_true_eq]
      constructor
      · rintro ⟨⟨hd, ha⟩, hb⟩
        by_cases hai : a = i
        · exact Or.inr ⟨⟨hai, hd⟩, hb⟩
        · exact Or.inl ⟨⟨hd, by omega⟩, hb⟩
      · rintro (⟨⟨hd, ha⟩, hb⟩ | ⟨⟨ha, hd⟩, hb⟩)
        · exact ⟨⟨hd, by omega⟩, hb⟩
        · exact ⟨⟨hd, by omega⟩, hb⟩
  · exact Nat.zero_add _
  · exact hfX
  · exact (FrameInv.frame_refl cellDraw edge p).frame_of_eq (by intro a b d; simp [planeRegion]) rfl rfl

theorem getShading_congr (s s' : ScreenManager) (z : ℚ) (h1 : s'.ShadedDraw = s.ShadedDraw)
    (h2 : s'.MainCamera = s.MainCamera) : getShading s' z = getShading s z := by
  simp [getShading, h1, h2]

theorem level_step (cellDraw : Nat → Nat → Nat → Direction → List Nat) (edge : Nat)
    (z : Nat) (p : ScreenManager × Map) (fuel : Nat)
    (hX : p.2.CellSizeX < 4294967296) (hY : p.2.CellSizeY < 4294967296)
    (hfX : p.2.CellSizeX < fuel) (hfY : p.2.CellSizeY < fuel) :
    ∃ q, renderLevel cellDraw edge fuel z p = some q ∧
      FrameInv cellDraw edge p (levelRegion p.1.MainCamera p.2.CellSizeX p.2.CellSizeY z)
        (levelCalls p.1 edge p.2 z) (levelTris cellDraw p.1.MainCamera edge p.2 z) q := by
  have h0 : FrameInv cellDraw edge p (fun _ _ _ => false)
      [GLCall.glColor3f (getShading p.1 (z : ℚ)) (getShading p.1 (z : ℚ)) (getShading p.1 (z : ℚ))]
      0 (p.1.emit (GLCall.glColor3f (getShading p.1 (z : ℚ)) (getShading p.1 (z : ℚ))
        (getShading p.1 (z : ℚ))), p.2) := by
    simp [FrameInv, SameStatic, ScreenManager.emit]
  by_cases hz : (z : ℚ) ≤ p.1.MainCamera.LookZ
  · obtain ⟨q, hq, h2⟩ := plane_loop cellDraw edge (getShading p.1 (z : ℚ)) z
      (p.1.emit (GLCall.glColor3f (getShading p.1 (z : ℚ)) (getShading p.1 (z : ℚ))
        (getShading p.1 (z : ℚ))), p.2) fuel hX hY hfX hfY
    refine ⟨q, ?_, ?_⟩
    · unfold renderLevel
      simp only [ScreenManager.emit] at hq ⊢
      simp only [hz, if_true]
      exact hq
    · refine (FrameInv.frame_trans h0 h2 (fun _ _ _ _ => rfl) (fun _ _ _ => rfl)).frame_of_eq ?_ ?_ ?_
      · intro a b d
        simp [levelRegion, planeRegion, hz]
      · simp [levelCalls, hz, ScreenManager.emit]
      · simp [levelTris, hz, ScreenManager.emit]
  · refine ⟨(p.1.emit (GLCall.glColor3f (getShading p.1 (z : ℚ)) (getShading p.1 (z : ℚ))
        (getShading p.1 (z : ℚ))), p.2), ?_, ?_⟩
    · unfold renderLevel
      simp only [ScreenManager.emit] at hz ⊢
      simp only [hz, if_false]
    · refine FrameInv.frame_of_eq h0 ?_ ?_ ?_
      · intro a b d
        simp [levelRegion, hz]
      · simp [levelCalls, hz]
      · simp [levelTris, hz]

theorem levelCalls_congr (s s' : ScreenManager) (edge : Nat) (m m' : Map) (z : Nat)
    (h1 : s'.ShadedDraw = s.ShadedDraw) (h2 : s'.MainCamera = s.MainCamera)
    (hX : m'.CellSizeX = m.CellSizeX) (hY : m'.CellSizeY = m.CellSizeY)
    (h : ∀ x y, x < m.CellSizeX → y < m.CellSizeY → m'.getCell x y z = m.getCell x y z) :
    levelCalls s' edge m' z = levelCalls s edge m z := by
  unfold levelCalls
  rw [getShading_congr s s' _ h1 h2, h2, hX, planeCalls_congr _ _ _ m m' z _ hY h]

theorem levelTris_congr (cellDraw : Nat → Nat → Nat → Direction → List Nat) (cam : Camera)
    (edge : Nat) (m m' : Map) (z : Nat)
    (hX : m'.CellSizeX = m.CellSizeX) (hY : m'.CellSizeY = m.CellSizeY)
    (h : ∀ x y, x < m.CellSizeX → y < m.CellSizeY → m'.getCell x y z = m.getCell x y z) :
    levelTris cellDraw cam edge m' z = levelTris cellDraw cam edge m z := by
  unfold levelTris
  rw [hX, planeTris_congr _ _ _ m m' z _ hY h]

theorem frameCalls_congr (s s' : ScreenManager) (edge : Nat) (m : Map) (n : Nat)
    (h1 : s'.ShadedDraw = s.ShadedDraw) (h2 : s'.MainCamera = s.MainCamera) :
    frameCalls s' edge m n = frameCalls s edge m n :=
  callsUpTo_congr _ _ n
    (fun z _ => levelCalls_congr s s' edge m m z h1 h2 rfl rfl (fun _ _ _ _ => rfl))

theorem frame_loop (cellDraw : Nat → Nat → Nat → Direction → List Nat) (edge : Nat)
    (p : ScreenManager × Map) (fuel : Nat) (hfit : p.2.fitsRender fuel) :
    ∃ q, forLoop 65536 (fun r : ScreenManager × Map => r.2.getCellSizeZ)
        (renderLevel cellDraw edge fuel) fuel 0 p = some q ∧
      FrameInv cellDraw edge p
        (frameRegion p.1.MainCamera p.2.CellSizeX p.2.CellSizeY p.2.CellSizeZ)
        (frameCalls p.1 edge p.2 p.2.CellSizeZ)
        (frameTris cellDraw p.1.MainCamera edge p.2 p.2.CellSizeZ) q := by
  obtain ⟨hZ, hX, hY, hfX, hfY, hfZ⟩ := hfit
  apply forLoop_rule 65536 p.2.CellSizeZ _ _
    (fun i q => FrameInv cellDraw edge p
      (frameRegion p.1.MainCamera p.2.CellSizeX p.2.CellSizeY i)
      (frameCalls p.1 edge p.2 i) (frameTris cellDraw p.1.MainCamera edge p.2 i) q) hZ
  · intro i q h
    exact h.1.2.2.2.2.2.2.2.2.2
  · intro i q hi h1
    have hqX : q.2.CellSizeX = p.2.CellSizeX := h1.1.2.2.2.2.2.2.2.1
    have hqY : q.2.CellSizeY = p.2.CellSizeY := h1.1.2.2.2.2.2.2.2.2.1
    obtain ⟨r, hr, h2⟩ := level_step cellDraw edge i q fuel (by omega) (by omega)
      (by omega) (by omega)
    refine ⟨r, hr, ?_⟩
    have hcell : ∀ x y, x < p.2.CellSizeX → y < p.2.CellSizeY →
        q.2.getCell x y i = p.2.getCell x y i :=
      fun x y _ _ => h1.cell_eq x y i (by simp [frameRegion])
    rw [hqX, hqY, h1.1.1, levelCalls_congr p.1 q.1 edge p.2 q.2 i h1.1.2.1 h1.1.1 hqX hqY hcell,
      levelTris_congr cellDraw _ edge p.2 q.2 i hqX hqY hcell] at h2
    refine FrameInv.frame_trans h1 h2 ?_ ?_
    · intro a b d hV
      simp only [levelRegion, Bool.and_eq_true, decide_eq_true_eq] at hV
      obtain ⟨⟨⟨rfl, _⟩, _⟩, _⟩ := hV
      simp [frameRegion]
    · intro a b d
      rw [Bool.eq_iff_iff]
      simp only [frameRegion, levelRegion, Bool.and_eq_true, Bool.or_eq_true, decide_eq_true_eq]
      constructor
      · rintro ⟨⟨⟨hd, hL⟩, ha⟩, hb⟩
        by_cases hdi : d = i
        · subst hdi
          exact Or.inr ⟨⟨⟨rfl, hL⟩, ha⟩, hb⟩
        · exact Or.inl ⟨⟨⟨by omega, hL⟩, ha⟩, hb⟩
      · rintro (⟨⟨⟨hd, hL⟩, ha⟩, hb⟩ | ⟨⟨⟨hd, hL⟩, ha⟩, hb⟩)
        · exact ⟨⟨⟨by omega, hL⟩, ha⟩, hb⟩
        · subst hd
          exact ⟨⟨⟨by omega, hL⟩, ha⟩, hb⟩
  · exact Nat.zero_add _
  · exact hfZ
  · exact (FrameInv.frame_refl cellDraw edge p).frame_of_eq (by intro a b d; simp [frameRegion]) rfl rfl

/-! ## The render pass: the whole frame -/

theorem Render_ready_eq (cellDraw : Nat → Nat → Nat → Direction → List Nat) (fuel : Nat)
    (w : World) (m : Map) (hm : w.MAP = some m) (hi : m.Initialized = true) :
    Render cellDraw fuel w =
      (forLoop 65536 (fun q : ScreenManager × Map => q.2.getCellSizeZ)
        (renderLevel cellDraw (w.CellEdgeLength % 65536) fuel) fuel 0
        (setupScreen w.SCREEN, m)).map
        (fun q => (true, { w with SCREEN := { q.1 with gl := q.1.gl ++ renderPostlude },
                                  MAP := some q.2 })) := by
  unfold Render
  simp only [hm, hi]
  by_cases hfd : w.SCREEN.FrameDraw = true
  · simp only [ScreenManager.emit, hfd, setupScreen, renderPrelude, renderPostlude,
      Bool.not_true, Bool.false_eq_true, if_false, if_true, List.append_assoc,
      List.cons_append, List.nil_append]
    generalize forLoop 65536 _ _ fuel 0 _ = r
    cases r <;> rfl
  · simp only [ScreenManager.emit, hfd, setupScreen, renderPrelude, renderPostlude,
      Bool.not_true, Bool.false_eq_true, if_false, if_true, List.append_assoc,
      List.cons_append, List.nil_append]
    generalize forLoop 65536 _ _ fuel 0 _ = r
    cases r <;> rfl

/-- What `Render` does when the world is ready: it returns `true`; every cell
of the frame region is replaced by its state after one visit and no other cell
changes; the calls issued and the frame total are the closed forms. -/
theorem Render_ready (cellDraw : Nat → Nat → Nat → Direction → List Nat) (fuel : Nat)
    (w : World) (m : Map) (hm : w.MAP = some m) (hi : m.Initialized = true)
    (hfit : m.fitsRender fuel) :
    ∃ s' m', Render cellDraw fuel w = some (true, { w with SCREEN := s', MAP := some m' }) ∧
      s'.MainCamera = w.SCREEN.MainCamera ∧ s'.ShadedDraw = w.SCREEN.ShadedDraw ∧
      s'.FrameDraw = w.SCREEN.FrameDraw ∧
      m'.Initialized = m.Initialized ∧ m'.CellSizeX = m.CellSizeX ∧
      m'.CellSizeY = m.CellSizeY ∧ m'.CellSizeZ = m.CellSizeZ ∧
      (∀ a b d, m'.getCell a b d =
        if frameRegion w.SCREEN.MainCamera m.CellSizeX m.CellSizeY m.CellSizeZ a b d then
          cellAfter cellDraw w.SCREEN.MainCamera (w.CellEdgeLength % 65536) a b d (m.getCell a b d)
        else m.getCell a b d) ∧
      s'.gl = w.SCREEN.gl ++ (renderPrelude w.SCREEN
        ++ frameCalls w.SCREEN (w.CellEdgeLength % 65536) m m.CellSizeZ ++ renderPostlude) ∧
      s'.TotalTriangles =
        frameTris cellDraw w.SCREEN.MainCamera (w.CellEdgeLength % 65536) m m.CellSizeZ := by
  obtain ⟨q, hq, hinv⟩ := frame_loop cellDraw (w.CellEdgeLength % 65536)
    (setupScreen w.SCREEN, m) fuel hfit
  obtain ⟨hst, hcells, hgl, htot⟩ := hinv
  obtain ⟨hcam, hshade, hframe, _, _, _, hinit, hsX, hsY, hsZ⟩ := hst
  refine ⟨{ q.1 with gl := q.1.gl ++ renderPostlude }, q.2, ?_, hcam, hshade, hframe,
    hinit, hsX, hsY, hsZ, hcells, ?_, ?_⟩
  · rw [Render_ready_eq cellDraw fuel w m hm hi, hq]
    rfl
  · show q.1.gl ++ renderPostlude = _
    rw [hgl, frameCalls_congr w.SCREEN (setupScreen w.SCREEN) _ m _ rfl rfl]
    simp [setupScreen, List.append_assoc]
  · rw [htot]
    simp [setupScreen]

/-! ## Why the extents must fit the loop counters -/

theorem forLoop_preserves {σ : Type} (modulus : Nat) (bound : σ → Nat)
    (body : Nat → σ → Option σ) (P : σ → Prop)
    (hbody : ∀ i s s', P s → body i s = some s' → P s') :
    ∀ (fuel i : Nat) (s s' : σ), P s → forLoop modulus bound body fuel i s = some s' → P s' := by
  intro fuel
  induction fuel with
  | zero => intro i s s' _ h; simp [forLoop] at h
  | succ f ih =>
    intro i s s' hP h
    simp only [forLoop] at h
    by_cases hi : i < bound s
    · simp only [hi, if_true] at h
      cases hb : body i s with
      | none => simp [hb] at h
      | some s1 =>
        simp only [hb, Option.bind] at h
        exact ih _ s1 s' (hbody i s s1 hP hb) h
    · simp only [hi, if_false, Option.some.injEq] at h
      exact h ▸ hP

theorem renderLevel_preserves_CellSizeZ (cellDraw : Nat → Nat → Nat → Direction → List Nat)
    (edge fuel z Z : Nat) (p q : ScreenManager × Map) (hp : p.2.CellSizeZ = Z)
    (h : renderLevel cellDraw edge fuel z p = some q) : q.2.CellSizeZ = Z := by
  unfold renderLevel at h
  by_cases hz : (z : ℚ) ≤ p.1.MainCamera.LookZ
  · simp only [ScreenManager.emit, hz, if_true] at h
    refine forLoop_preserves _ _ _ (fun r : ScreenManager × Map => r.2.CellSizeZ = Z) ?_
      fuel 0 _ q ?_ h
    swap
    · exact hp
    intro a r r' hr hb
    refine forLoop_preserves _ _ _ (fun t : ScreenManager × Map => t.2.CellSizeZ = Z) ?_
      fuel 0 r r' hr hb
    intro b t t' ht hv
    simp only [Option.some.injEq] at hv
    rw [← hv, (visitCell_static cellDraw edge _ a b z t).2.2.2.2.2.2.2.2.2]
    exact ht
  · simp only [ScreenManager.emit, hz, if_false, Option.some.injEq] at h
    rw [← h]
    exact hp

/-- When the world is ready and the map has 65536 levels or more, the
`Uint16 Zlevel` counter of `Render` wraps around before reaching the bound and
`Render` does not return, whatever the fuel. -/
theorem Render_diverges_of_tall_map (cellDraw : Nat → Nat → Nat → Direction → List Nat)
    (fuel : Nat) (w : World) (m : Map) (hm : w.MAP = some m) (hi : m.Initialized = true)
    (hZ : 65536 ≤ m.getCellSizeZ) : Render cellDraw fuel w = none := by
  rw [Render_ready_eq cellDraw fuel w m hm hi]
  rw [forLoop_diverges 65536 m.CellSizeZ (fun q : ScreenManager × Map => q.2.getCellSizeZ)
    (renderLevel cellDraw (w.CellEdgeLength % 65536) fuel)
    (fun q : ScreenManager × Map => q.2.CellSizeZ = m.CellSizeZ) hZ (by decide)
    (fun s hs => hs)
    (fun i s s' hs hb => renderLevel_preserves_CellSizeZ cellDraw _ fuel i _ s s' hs hb)
    fuel 0 (setupScreen w.SCREEN, m) (by decide) rfl]
  rfl

/-! ## World not ready -/

theorem Render_not_ready_eq (cellDraw : Nat → Nat → Nat → Direction → List Nat) (fuel : Nat)
    (w : World) (h : w.ready = false) :
    Render cellDraw fuel w = some (false, { w with SCREEN :=
      { w.SCREEN with TotalTriangles := 0, TriangleCounter := 0,
                      gl := w.SCREEN.gl ++ [GLCall.glClear, GLCall.UpdateView] } }) := by
  unfold Render
  cases hm : w.MAP with
  | none => simp [ScreenManager.emit]
  | some m =>
    have hi : m.Initialized = false := by simpa [World.ready, hm] using h
    simp [hi, ScreenManager.emit]

theorem Render_ready_true (cellDraw : Nat → Nat → Nat → Direction → List Nat) (fuel : Nat)
    (w : World) (h : w.ready = true) (b : Bool) (w' : World)
    (hr : Render cellDraw fuel w = some (b, w')) : b = true := by
  cases hm : w.MAP with
  | none => simp [World.ready, hm] at h
  | some m =>
    have hi : m.Initialized = true := by simpa [World.ready, hm] using h
    rw [Render_ready_eq cellDraw fuel w m hm hi] at hr
    cases hl : forLoop 65536 (fun q : ScreenManager × Map => q.2.getCellSizeZ)
        (renderLevel cellDraw (w.CellEdgeLength % 65536) fuel) fuel 0
        (setupScreen w.SCREEN, m) with
    | none => simp [hl] at hr
    | some q =>
      simp only [hl, Option.map_some', Option.some.injEq, Prod.mk.injEq] at hr
      exact hr.1.symm

/-- C10. World-not-ready is a normal skip: `Render` returns `false` if and
only if the map is absent or not initialized, and `true` otherwise (for a map
whose extents are representable in the loop counters, given enough fuel); when
it returns `false` the map and every cell are unchanged, the only calls issued
are `glClear` and `UpdateView` (no list is compiled or replayed) and the frame
triangle total is 0. -/
theorem Render_world_not_ready_skip (cellDraw : Nat → Nat → Nat → Direction → List Nat)
    (fuel : Nat) (w : World) :
    ((∃ w', Render cellDraw fuel w = some (false, w')) ↔ w.ready = false) ∧
    (w.ready = true → (∀ m, w.MAP = some m → m.fitsRender fuel) →
      ∃ w', Render cellDraw fuel w = some (true, w')) ∧
    (∀ w', Render cellDraw fuel w = some (false, w') →
      w'.MAP = w.MAP ∧ w'.CellEdgeLength = w.CellEdgeLength ∧
      w'.SCREEN.gl = w.SCREEN.gl ++ [GLCall.glClear, GLCall.UpdateView] ∧
      w'.SCREEN.TotalTriangles = 0) := by
  refine ⟨⟨?_, ?_⟩, ?_, ?_⟩
  · rintro ⟨w', hw'⟩
    by_contra hr
    have hr' : w.ready = true := by simpa using hr
    exact absurd (Render_ready_true cellDraw fuel w hr' false w' hw') (by decide)
  · intro h
    exact ⟨_, Render_not_ready_eq cellDraw fuel w h⟩
  · intro h hfit
    cases hm : w.MAP with
    | none => simp [World.ready, hm] at h
    | some m =>
      have hi : m.Initialized = true := by simpa [World.ready, hm] using h
      obtain ⟨s', m', hr, _⟩ := Render_ready cellDraw fuel w m hm hi (hfit m hm)
      exact ⟨_, hr⟩
  · intro w' hw'
    have hnr : w.ready = false := by
      by_contra hr
      have hr' : w.ready = true := by simpa using hr
      exact absurd (Render_ready_true cellDraw fuel w hr' false w' hw') (by decide)
    rw [Render_not_ready_eq cellDraw fuel w hnr] at hw'
    simp only [Option.some.injEq, Prod.mk.injEq, true_and] at hw'
    subst hw'
    simp

/-- Witness of C10: the ready example world renders and returns `true`; the
world without a map is skipped with `false`. -/
theorem Render_world_not_ready_skip_witness :
    ((exampleWorld true Direction.NORTHEAST).ready = true ∧
      ∃ w', Render exampleDraw 3 (exampleWorld true Direction.NORTHEAST) = some (true, w')) ∧
    (emptyWorld.ready = false ∧ ∃ w', Render exampleDraw 3 emptyWorld = some (false, w')) :=
  ⟨⟨rfl, (Render_world_not_ready_skip exampleDraw 3 (exampleWorld true Direction.NORTHEAST)).2.1 rfl
    (by
      intro m hm
      simp only [exampleWorld, Option.some.injEq] at hm
      subst hm
      simp [Map.fitsRender, exampleMap])⟩,
   ⟨rfl, (Render_world_not_ready_skip exampleDraw 3 emptyWorld).1.2 rfl⟩⟩

/-! ## `DirtyAllLists` and `setShadedDraw` -/

theorem DirtyInv.dirty_refl (m : Map) : DirtyInv m (fun _ _ _ => false) m := by
  simp [DirtyInv]

theorem DirtyInv.dirty_of_eq {m q : Map} {V V' : Nat → Nat → Nat → Bool} (h : DirtyInv m V q)
    (hV : ∀ a b d, V' a b d = V a b d) : DirtyInv m V' q := by
  refine ⟨h.1, h.2.1, h.2.2.1, h.2.2.2.1, ?_⟩
  intro a b d
  rw [hV a b d]
  exact h.2.2.2.2 a b d

theorem DirtyInv.dirty_trans {m q r : Map} {V1 V2 V : Nat → Nat → Nat → Bool}
    (h1 : DirtyInv m V1 q) (h2 : DirtyInv q V2 r)
    (hV : ∀ a b d, V a b d = (V1 a b d || V2 a b d)) : DirtyInv m V r := by
  refine ⟨h2.1.trans h1.1, h2.2.1.trans h1.2.1, h2.2.2.1.trans h1.2.2.1,
    h2.2.2.2.1.trans h1.2.2.2.1, ?_⟩
  intro a b d
  rw [h2.2.2.2.2 a b d, h1.2.2.2.2 a b d, hV a b d]
  cases V1 a b d <;> cases V2 a b d <;> simp

theorem setCell_dirtyInv (m : Map) (x y z : Nat) :
    DirtyInv m (fun a b d => decide (a = x) && decide (b = y) && decide (d = z))
      (m.setCell x y z { m.getCell x y z with DirtyDrawlist := true }) := by
  refine ⟨rfl, rfl, rfl, rfl, ?_⟩
  intro a b d
  by_cases hc : a = x ∧ b = y ∧ d = z
  · obtain ⟨rfl, rfl, rfl⟩ := hc
    simp [Map.setCell, Map.getCell]
  · have : (decide (a = x) && decide (b = y) && decide (d = z)) = false := by
      simpa [and_assoc] using hc
    simp [Map.setCell, Map.getCell, hc, this]

theorem dirty_row (x z : Nat) (m : Map) (fuel : Nat)
    (hY : m.CellSizeY < 4294967296) (hf : m.CellSizeY < fuel) :
    ∃ q, forLoop 4294967296 (fun t : Map => t.getCellSizeY)
        (fun SizeY t => some (t.setCell x SizeY z
          { t.getCell x SizeY z with DirtyDrawlist := true })) fuel 0 m = some q ∧
      DirtyInv m (rowRegion x z m.CellSizeY) q := by
  apply forLoop_rule 4294967296 m.CellSizeY _ _
    (fun i q => DirtyInv m (rowRegion x z i) q) hY
  · intro i q h
    exact h.2.2.1
  · intro i q hi h1
    refine ⟨_, rfl, ?_⟩
    refine DirtyInv.dirty_trans h1 (setCell_dirtyInv q x i z) ?_
    intro a b d
    rw [Bool.eq_iff_iff]
    simp only [rowRegion, Bool.and_eq_true, Bool.or_eq_true, decide_eq_true_eq]
    constructor
    · rintro ⟨⟨ha, hd⟩, hb⟩
      by_cases hbi : b = i
      · exact Or.inr ⟨⟨ha, hbi⟩, hd⟩
      · exact Or.inl ⟨⟨ha, hd⟩, by omega⟩
    · rintro (⟨⟨ha, hd⟩, hb⟩ | ⟨⟨ha, hb⟩, hd⟩)
      · exact ⟨⟨ha, hd⟩, by omega⟩
      · exact ⟨⟨ha, hd⟩, by omega⟩
  · exact Nat.zero_add _
  · exact hf
  · exact (DirtyInv.dirty_refl m).dirty_of_eq (by intro a b d; simp [rowRegion])

theorem dirty_plane (z : Nat) (m : Map) (fuel : Nat)
    (hX : m.CellSizeX < 4294967296) (hY : m.CellSizeY < 4294967296)
    (hfX : m.CellSizeX < fuel) (hfY : m.CellSizeY < fuel) :
    ∃ q, forLoop 4294967296 (fun r : Map => r.getCellSizeX)
        (fun SizeX r =>
          forLoop 4294967296 (fun t : Map => t.getCellSizeY)
            (fun SizeY t => some (t.setCell SizeX SizeY z
              { t.getCell SizeX SizeY z with DirtyDrawlist := true })) fuel 0 r)
        fuel 0 m = some q ∧
      DirtyInv m (planeRegion m.CellSizeY z m.CellSizeX) q := by
  apply forLoop_rule 4294967296 m.CellSizeX _ _
    (fun i q => DirtyInv m (planeRegion m.CellSizeY z i) q) hX
  · intro i q h
    exact h.2.1
  · intro i q hi h1
    have hqY : q.CellSizeY = m.CellSizeY := h1.2.2.1
    obtain ⟨r, hr, h2⟩ := dirty_row i z q fuel (by omega) (by omega)
    refine ⟨r, hr, ?_⟩
    rw [hqY] at h2
    refine DirtyInv.dirty_trans h1 h2 ?_
    intro a b d
    rw [Bool.eq_iff_iff]
    simp only [planeRegion, rowRegion, Bool.and_eq_true, Bool.or_eq_true, decide_eq_true_eq]
    constructor
    · rintro ⟨⟨hd, ha⟩, hb⟩
      by_cases hai : a = i
      · exact Or.inr ⟨⟨hai, hd⟩, hb⟩
      · exact Or.inl ⟨⟨hd, by omega⟩, hb⟩
    · rintro (⟨⟨hd, ha⟩, hb⟩ | ⟨⟨ha, hd⟩, hb⟩)
      · exact ⟨⟨hd, by omega⟩, hb⟩
      · exact ⟨⟨hd, by omega⟩, hb⟩
  · exact Nat.zero_add _
  · exact hfX
  · exact (DirtyInv.dirty_refl m).dirty_of_eq (by intro a b d; simp [planeRegion])

theorem dirty_box (m : Map) (fuel : Nat) (hfit : m.fitsDirty fuel) :
    ∃ q, forLoop 4294967296 (fun q : Map => q.getCellSizeZ)
        (fun SizeZ q =>
          forLoop 4294967296 (fun r : Map => r.getCellSizeX)
            (fun SizeX r =>
              forLoop 4294967296 (fun t : Map => t.getCellSizeY)
                (fun SizeY t => some (t.setCell SizeX SizeY SizeZ
                  { t.getCell SizeX SizeY SizeZ with DirtyDrawlist := true }))
                fuel 0 r)
            fuel 0 q)
        fuel 0 m = some q ∧
      DirtyInv m (boxRegion m.CellSizeX m.CellSizeY m.CellSizeZ) q := by
  obtain ⟨hZ, hX, hY, hfX, hfY, hfZ⟩ := hfit
  apply forLoop_rule 4294967296 m.CellSizeZ _ _
    (fun i q => DirtyInv m (boxRegion m.CellSizeX m.CellSizeY i) q) hZ
  · intro i q h
    exact h.2.2.2.1
  · intro i q hi h1
    have hqX : q.CellSizeX = m.CellSizeX := h1.2.1
    have hqY : q.CellSizeY = m.CellSizeY := h1.2.2.1
    obtain ⟨r, hr, h2⟩ := dirty_plane i q fuel (by omega) (by omega) (by omega) (by omega)
    refine ⟨r, hr, ?_⟩
    rw [hqX, hqY] at h2
    refine DirtyInv.dirty_trans h1 h2 ?_
    intro a b d
    rw [Bool.eq_iff_iff]
    simp only [boxRegion, planeRegion, Bool.and_eq_true, Bool.or_eq_true, decide_eq_true_eq]
    constructor
    · rintro ⟨⟨hd, ha⟩, hb⟩
      by_cases hdi : d = i
      · exact Or.inr ⟨⟨hdi, ha⟩, hb⟩
      · exact Or.inl ⟨⟨by omega, ha⟩, hb⟩
    · rintro (⟨⟨hd, ha⟩, hb⟩ | ⟨⟨hd, ha⟩, hb⟩)
      · exact ⟨⟨by omega, ha⟩, hb⟩
      · exact ⟨⟨by omega, ha⟩, hb⟩
  · exact Nat.zero_add _
  · exact hfZ
  · exact (DirtyInv.dirty_refl m).dirty_of_eq (by intro a b d; simp [boxRegion])

theorem DirtyAllLists_ready (fuel : Nat) (w : World) (m : Map) (hm : w.MAP = some m)
    (hi : m.Initialized = true) (hfit : m.fitsDirty fuel) :
    ∃ m', DirtyAllLists fuel w = some { w with MAP := some m' } ∧
      DirtyInv m (boxRegion m.CellSizeX m.CellSizeY m.CellSizeZ) m' := by
  obtain ⟨q, hq, hinv⟩ := dirty_box m fuel hfit
  refine ⟨q, ?_, hinv⟩
  unfold DirtyAllLists
  simp only [hm, hi]
  simp [hq]

theorem DirtyAllLists_not_ready (fuel : Nat) (w : World) (h : w.ready = false) :
    DirtyAllLists fuel w = some w := by
  unfold DirtyAllLists
  cases hm : w.MAP with
  | none => rfl
  | some m =>
    have hi : m.Initialized = false := by simpa [World.ready, hm] using h
    simp [hi]

/-- What the two statements of `setShadedDraw` do before control reaches the
closing brace: in an initialized map every cell inside the extents is dirty and
nothing else but the shading flag has changed; when the map is absent or not
initialized only the shading flag has changed. In both cases the call then
flows off the end. -/
theorem setShadedDraw_body (fuel : Nat) (v : Bool) (w : World) :
    (∀ m, w.MAP = some m → m.Initialized = true → m.fitsDirty fuel →
      ∃ m', setShadedDraw fuel v w = CallOutcome.flowsOffEnd
          { w with SCREEN := { w.SCREEN with ShadedDraw := v }, MAP := some m' } ∧
        m'.Initialized = true ∧ m'.getCellSizeX = m.getCellSizeX ∧
        m'.getCellSizeY = m.getCellSizeY ∧ m'.getCellSizeZ = m.getCellSizeZ ∧
        (∀ x y z, x < m.getCellSizeX → y < m.getCellSizeY → z < m.getCellSizeZ →
          (m'.getCell x y z).DirtyDrawlist = true) ∧
        (∀ x y z, (m'.getCell x y z).DrawListID = (m.getCell x y z).DrawListID ∧
          (m'.getCell x y z).TriangleCount = (m.getCell x y z).TriangleCount ∧
          (m'.getCell x y z).Position = (m.getCell x y z).Position)) ∧
    (w.ready = false →
      setShadedDraw fuel v w = CallOutcome.flowsOffEnd
        { w with SCREEN := { w.SCREEN with ShadedDraw := v } }) := by
  refine ⟨?_, ?_⟩
  · intro m hm hi hfit
    obtain ⟨m', hr, hin, hX, hY, hZ, hcells⟩ :=
      DirtyAllLists_ready fuel { w with SCREEN := { w.SCREEN with ShadedDraw := v } } m hm hi hfit
    refine ⟨m', by simp [setShadedDraw, hr], hin.trans hi, hX, hY, hZ, ?_, ?_⟩
    · intro x y z hx hy hz
      rw [hcells x y z]
      simp only [Map.getCellSizeX, Map.getCellSizeY, Map.getCellSizeZ] at hx hy hz
      simp [boxRegion, hx, hy, hz]
    · intro x y z
      rw [hcells x y z]
      cases boxRegion m.CellSizeX m.CellSizeY m.CellSizeZ x y z <;> simp
  · intro h
    have hr := DirtyAllLists_not_ready fuel
      { w with SCREEN := { w.SCREEN with ShadedDraw := v } } h
    simp [setShadedDraw, hr]

/-- No call of `setShadedDraw` returns a value. -/
theorem setShadedDraw_never_returns (fuel : Nat) (v : Bool) (w : World) (value : Bool)
    (w' : World) : setShadedDraw fuel v w ≠ CallOutcome.returned value w' := by
  unfold setShadedDraw
  cases DirtyAllLists fuel { w with SCREEN := { w.SCREEN with ShadedDraw := v } } <;> simp

/-- C9, the code at the failing input. `setShadedDraw(true)` on the example
world (an initialized map of two clean cells): the two statements of the body
set the shading flag and mark both cells dirty, keeping handles and cached
counts, as the claim says; the call then reaches the end of the `bool` function
without a `return` statement, so it does not return a value and its behaviour is
undefined. -/
theorem setShadedDraw_flows_off_end :
    ∃ m', setShadedDraw 3 true (exampleWorld false Direction.NORTHEAST) =
        CallOutcome.flowsOffEnd { exampleWorld false Direction.NORTHEAST with
          SCREEN := { (exampleWorld false Direction.NORTHEAST).SCREEN with ShadedDraw := true },
          MAP := some m' } ∧
      (m'.getCell 0 0 0).DirtyDrawlist = true ∧ (m'.getCell 1 0 0).DirtyDrawlist = true ∧
      (m'.getCell 0 0 0).DrawListID = 10 ∧ (m'.getCell 1 0 0).TriangleCount = 8 := by
  obtain ⟨m', hr, _, _, _, _, hd, hk⟩ :=
    (setShadedDraw_body 3 true (exampleWorld false Direction.NORTHEAST)).1
      (exampleMap false) rfl rfl (by simp [Map.fitsDirty, exampleMap])
  exact ⟨m', hr, hd 0 0 0 (by decide) (by decide) (by decide),
    hd 1 0 0 (by decide) (by decide) (by decide), (hk 0 0 0).1, (hk 1 0 0).2.1⟩

/-! ## Where the calls of one cell sit in the frame -/

theorem callsUpTo_split (f : Nat → List GLCall) (n i : Nat) (hi : i < n) :
    ∃ pre post, callsUpTo f n = pre ++ f i ++ post ∧
      ∀ c, c ∈ pre ++ post → ∃ j, j < n ∧ j ≠ i ∧ c ∈ f j := by
  induction n with
  | zero => omega
  | succ n ih =>
    by_cases hin : i = n
    · subst hin
      refine ⟨callsUpTo f i, [], by simp [callsUpTo], ?_⟩
      intro c hc
      rw [List.append_nil, mem_callsUpTo] at hc
      obtain ⟨j, hj, hcj⟩ := hc
      exact ⟨j, by omega, by omega, hcj⟩
    · obtain ⟨pre, post, heq, hmem⟩ := ih (by omega)
      refine ⟨pre, post ++ f n, by simp [callsUpTo, heq, List.append_assoc], ?_⟩
      intro c hc
      rw [← List.append_assoc, List.mem_append] at hc
      rcases hc with hc | hc
      · obtain ⟨j, hj, hji, hcj⟩ := hmem c hc
        exact ⟨j, by omega, hji, hcj⟩
      · exact ⟨n, by omega, fun h => hin h.symm, hc⟩

theorem mem_levelCalls (s : ScreenManager) (edge : Nat) (m : Map) (d : Nat) (c : GLCall)
    (hc : c ∈ levelCalls s edge m d) :
    (∃ r, c = GLCall.glColor3f r r r) ∨
    ∃ a b, a < m.CellSizeX ∧ b < m.CellSizeY ∧ (d : ℚ) ≤ s.MainCamera.LookZ ∧
      c ∈ cellCalls s.MainCamera edge (getShading s (d : ℚ)) a b d (m.getCell a b d) := by
  unfold levelCalls at hc
  rw [List.mem_cons] at hc
  rcases hc with hc | hc
  · exact Or.inl ⟨_, hc⟩
  · by_cases hz : (d : ℚ) ≤ s.MainCamera.LookZ
    · rw [if_pos hz] at hc
      unfold planeCalls at hc
      rw [mem_callsUpTo] at hc
      obtain ⟨a, ha, hc⟩ := hc
      unfold rowCalls at hc
      rw [mem_callsUpTo] at hc
      obtain ⟨b, hb, hc⟩ := hc
      exact Or.inr ⟨a, b, ha, hb, hz, hc⟩
    · rw [if_neg hz] at hc
      simp at hc

/-- The calls of the `Zlevel` loop are the calls of the visit of the cell at
`(x, y, z)`, preceded and followed by shading calls and calls of the visits of
other cells. -/
theorem frame_split (s : ScreenManager) (edge : Nat) (m : Map) (x y z : Nat)
    (hx : x < m.CellSizeX) (hy : y < m.CellSizeY) (hz : z < m.CellSizeZ)
    (hlook : (z : ℚ) ≤ s.MainCamera.LookZ) :
    ∃ pre post, frameCalls s edge m m.CellSizeZ =
        pre ++ cellCalls s.MainCamera edge (getShading s (z : ℚ)) x y z (m.getCell x y z) ++ post ∧
      ∀ c, c ∈ pre ++ post →
        (∃ r, c = GLCall.glColor3f r r r) ∨
        ∃ a b d, ¬ (a = x ∧ b = y ∧ d = z) ∧ a < m.CellSizeX ∧ b < m.CellSizeY ∧
          d < m.CellSizeZ ∧
          c ∈ cellCalls s.MainCamera edge (getShading s (d : ℚ)) a b d (m.getCell a b d) := by
  obtain ⟨pre1, post1, h1, hm1⟩ := callsUpTo_split (fun d => levelCalls s edge m d) _ z hz
  obtain ⟨pre2, post2, h2, hm2⟩ := callsUpTo_split
    (fun a => rowCalls s.MainCamera edge (getShading s (z : ℚ)) m a z m.CellSizeY) _ x hx
  obtain ⟨pre3, post3, h3, hm3⟩ := callsUpTo_split
    (fun b => cellCalls s.MainCamera edge (getShading s (z : ℚ)) x b z (m.getCell x b z)) _ y hy
  refine ⟨pre1 ++ GLCall.glColor3f (getShading s (z : ℚ)) (getShading s (z : ℚ))
      (getShading s (z : ℚ)) :: (pre2 ++ pre3), post3 ++ post2 ++ post1, ?_, ?_⟩
  · unfold frameCalls
    rw [h1]
    simp only [levelCalls, if_pos hlook, planeCalls]
    rw [h2]
    simp only [rowCalls]
    rw [h3]
    simp [List.append_assoc]
  · intro c hc
    simp only [List.mem_append, List.mem_cons] at hc
    have key1 : c ∈ pre1 ++ post1 → (∃ r, c = GLCall.glColor3f r r r) ∨
        ∃ a b d, ¬ (a = x ∧ b = y ∧ d = z) ∧ a < m.CellSizeX ∧ b < m.CellSizeY ∧
          d < m.CellSizeZ ∧
          c ∈ cellCalls s.MainCamera edge (getShading s (d : ℚ)) a b d (m.getCell a b d) := by
      intro h
      obtain ⟨d, hd, hdz, hcd⟩ := hm1 c h
      rcases mem_levelCalls s edge m d c hcd with hcol | ⟨a, b, ha, hb, _, hcc⟩
      · exact Or.inl hcol
      · exact Or.inr ⟨a, b, d, fun h => hdz h.2.2, ha, hb, hd, hcc⟩
    have key2 : c ∈ pre2 ++ post2 →
        ∃ a b d, ¬ (a = x ∧ b = y ∧ d = z) ∧ a < m.CellSizeX ∧ b < m.CellSizeY ∧
          d < m.CellSizeZ ∧
          c ∈ cellCalls s.MainCamera edge (getShading s (d : ℚ)) a b d (m.getCell a b d) := by
      intro h
      obtain ⟨a, ha, hax, hca⟩ := hm2 c h
      unfold rowCalls at hca
      rw [mem_callsUpTo] at hca
      obtain ⟨b, hb, hcb⟩ := hca
      exact ⟨a, b, z, fun h => hax h.1, ha, hb, hz, hcb⟩
    have key3 : c ∈ pre3 ++ post3 →
        ∃ a b d, ¬ (a = x ∧ b = y ∧ d = z) ∧ a < m.CellSizeX ∧ b < m.CellSizeY ∧
          d < m.CellSizeZ ∧
          c ∈ cellCalls s.MainCamera edge (getShading s (d : ℚ)) a b d (m.getCell a b d) := by
      intro h
      obtain ⟨b, hb, hby, hcb⟩ := hm3 c h
      exact ⟨x, b, z, fun h => hby h.2.1, hx, hb, hz, hcb⟩
    rcases hc with (h | h | h | h) | (h | h) | h
    · exact key1 (List.mem_append.mpr (Or.inl h))
    · exact Or.inl ⟨_, h⟩
    · exact Or.inr (key2 (List.mem_append.mpr (Or.inl h)))
    · exact Or.inr (key3 (List.mem_append.mpr (Or.inl h)))
    · exact Or.inr (key3 (List.mem_append.mpr (Or.inr h)))
    · exact Or.inr (key2 (List.mem_append.mpr (Or.inr h)))
    · exact key1 (List.mem_append.mpr (Or.inr h))

theorem mem_cellCalls_CellDraw (cam : Camera) (edge : Nat) (sh : ℚ) (a b d : Nat) (c : Cell)
    (x y z : Nat) (o : Direction)
    (h : GLCall.CellDraw x y z o ∈ cellCalls cam edge sh a b d c) :
    a = x ∧ b = y ∧ d = z ∧ c.DirtyDrawlist = true ∧
      cam.sphereInFrustum c.Position edge = true := by
  unfold cellCalls at h
  by_cases hf : cam.sphereInFrustum c.Position edge = true
  · by_cases hd : c.DirtyDrawlist = true
    · simp only [hf, hd, if_true] at h
      simp [rebuildCalls, refreshCalls] at h
      refine ⟨?_, ?_, ?_, hd, hf⟩ <;> rcases h with h | h | h | h <;> simp [h.1, h.2.1, h.2.2.1]
    · simp [hf, hd, replayCalls] at h
  · simp [hf] at h

theorem mem_cellCalls_glCallList (cam : Camera) (edge : Nat) (sh : ℚ) (a b d : Nat) (c : Cell)
    (i : Nat) (h : GLCall.glCallList i ∈ cellCalls cam edge sh a b d c) :
    i = c.DrawListID ∧ c.DirtyDrawlist = false := by
  unfold cellCalls at h
  by_cases hf : cam.sphereInFrustum c.Position edge = true
  · by_cases hd : c.DirtyDrawlist = true
    · simp only [hf, hd, if_true] at h
      simp [rebuildCalls, refreshCalls] at h
    · simp [hf, hd, replayCalls] at h
      exact ⟨h, by simpa using hd⟩
  · simp [hf] at h

theorem Render_cell_segment (cellDraw : Nat → Nat → Nat → Direction → List Nat) (fuel : Nat)
    (w : World) (m : Map) (x y z : Nat)
    (hm : w.MAP = some m) (hi : m.Initialized = true) (hfit : m.fitsRender fuel)
    (hx : x < m.getCellSizeX) (hy : y < m.getCellSizeY) (hz : z < m.getCellSizeZ)
    (hlook : (z : ℚ) ≤ w.SCREEN.MainCamera.LookZ) :
    ∃ w' m' pre post, Render cellDraw fuel w = some (true, w') ∧ w'.MAP = some m' ∧
      w'.SCREEN.gl = w.SCREEN.gl ++ (pre ++ cellCalls w.SCREEN.MainCamera
        (w.CellEdgeLength % 65536) (getShading w.SCREEN (z : ℚ)) x y z (m.getCell x y z) ++ post) ∧
      m'.getCell x y z = cellAfter cellDraw w.SCREEN.MainCamera (w.CellEdgeLength % 65536)
        x y z (m.getCell x y z) ∧
      (∀ o, GLCall.CellDraw x y z o ∉ pre ++ post) ∧
      (∀ i, GLCall.glCallList i ∈ pre ++ post →
        ∃ a b d, ¬ (a = x ∧ b = y ∧ d = z) ∧ a < m.getCellSizeX ∧ b < m.getCellSizeY ∧
          d < m.getCellSizeZ ∧ i = (m.getCell a b d).DrawListID) := by
  obtain ⟨s', m', hr, _, _, _, _, _, _, _, hcells, hgl, _⟩ :=
    Render_ready cellDraw fuel w m hm hi hfit
  obtain ⟨pre, post, hsplit, hmem⟩ :=
    frame_split w.SCREEN (w.CellEdgeLength % 65536) m x y z hx hy hz hlook
  have hother : ∀ c, c ∈ (renderPrelude w.SCREEN ++ pre) ++ (post ++ renderPostlude) →
      (∃ r, c = GLCall.glColor3f r r r) ∨ c ∈ renderPrelude w.SCREEN ∨ c ∈ renderPostlude ∨
      ∃ a b d, ¬ (a = x ∧ b = y ∧ d = z) ∧ a < m.CellSizeX ∧ b < m.CellSizeY ∧
        d < m.CellSizeZ ∧
        c ∈ cellCalls w.SCREEN.MainCamera (w.CellEdgeLength % 65536)
          (getShading w.SCREEN (d : ℚ)) a b d (m.getCell a b d) := by
    intro c hc
    simp only [List.mem_append] at hc
    rcases hc with (h | h) | (h | h)
    · exact Or.inr (Or.inl h)
    · rcases hmem c (List.mem_append.mpr (Or.inl h)) with h' | h'
      · exact Or.inl h'
      · exact Or.inr (Or.inr (Or.inr h'))
    · rcases hmem c (List.mem_append.mpr (Or.inr h)) with h' | h'
      · exact Or.inl h'
      · exact Or.inr (Or.inr (Or.inr h'))
    · exact Or.inr (Or.inr (Or.inl h))
  refine ⟨_, m', renderPrelude w.SCREEN ++ pre, post ++ renderPostlude, hr, rfl, ?_, ?_, ?_, ?_⟩
  · show s'.gl = _
    rw [hgl, hsplit]
    simp [List.append_assoc]
  · rw [hcells x y z]
    have hreg : frameRegion w.SCREEN.MainCamera m.CellSizeX m.CellSizeY m.CellSizeZ x y z
        = true := by
      simp only [Map.getCellSizeX, Map.getCellSizeY, Map.getCellSizeZ] at hx hy hz
      simp [frameRegion, hx, hy, hz, hlook]
    simp [hreg]
  · intro o ho
    rcases hother _ ho with ⟨r, h⟩ | h | h | ⟨a, b, d, hne, _, _, _, h⟩
    · simp at h
    · by_cases hfd : w.SCREEN.FrameDraw = true <;> simp [renderPrelude, hfd] at h
    · simp [renderPostlude] at h
    · have := mem_cellCalls_CellDraw _ _ _ _ _ _ _ _ _ _ o h
      exact hne ⟨this.1, this.2.1, this.2.2.1⟩
  · intro i hi'
    rcases hother _ hi' with ⟨r, h⟩ | h | h | ⟨a, b, d, hne, ha, hb, hd, h⟩
    · simp at h
    · by_cases hfd : w.SCREEN.FrameDraw = true <;> simp [renderPrelude, hfd] at h
    · simp [renderPostlude] at h
    · exact ⟨a, b, d, hne, ha, hb, hd, (mem_cellCalls_glCallList _ _ _ _ _ _ _ i h).1⟩

theorem rebuildCalls_explicit (dir : Direction) (sh : ℚ) (x y z id : Nat) :
    rebuildCalls dir sh x y z id =
      [GLCall.glDeleteLists id 4, GLCall.glColor3f sh sh sh,
        GLCall.glNewList id (if dir = Direction.NORTHEAST then ListMode.GL_COMPILE_AND_EXECUTE
          else ListMode.GL_COMPILE),
        GLCall.glBegin, GLCall.CellDraw x y z Direction.NORTHEAST, GLCall.glEnd, GLCall.glEndList,
        GLCall.glColor3f sh sh sh,
        GLCall.glNewList ((id + 1) % 4294967296)
          (if dir = Direction.SOUTHEAST then ListMode.GL_COMPILE_AND_EXECUTE
            else ListMode.GL_COMPILE),
        GLCall.glBegin, GLCall.CellDraw x y z Direction.SOUTHEAST, GLCall.glEnd, GLCall.glEndList,
        GLCall.glColor3f sh sh sh,
        GLCall.glNewList ((id + 2) % 4294967296)
          (if dir = Direction.SOUTHWEST then ListMode.GL_COMPILE_AND_EXECUTE
            else ListMode.GL_COMPILE),
        GLCall.glBegin, GLCall.CellDraw x y z Direction.SOUTHWEST, GLCall.glEnd, GLCall.glEndList,
        GLCall.glColor3f sh sh sh,
        GLCall.glNewList ((id + 3) % 4294967296)
          (if dir = Direction.NORTHWEST then ListMode.GL_COMPILE_AND_EXECUTE
            else ListMode.GL_COMPILE),
        GLCall.glBegin, GLCall.CellDraw x y z Direction.NORTHWEST, GLCall.glEnd, GLCall.glEndList,
        GLCall.glColor3f sh sh sh] := by
  simp [rebuildCalls, refreshCalls, GLuintAdd]

/-- C4, counterexample: in the example world the cell `(0, 0, 0)` is clean,
inside the frustum and at the look level, with draw lists 10..13; the frame of
`Render` holds a `glCallList` on one of them and none on the lists 11, 12 and
13, so the four blocks are not all issued. -/
theorem Render_replay_skips_three_lists :
    ((exampleMap false).getCell 0 0 0).DirtyDrawlist = false ∧
    ((exampleMap false).getCell 0 0 0).DrawListID = 10 ∧
    ∃ w', Render exampleDraw 3 (exampleWorld false Direction.SOUTHEAST) = some (true, w') ∧
      GLCall.glCallList 10 ∈ w'.SCREEN.gl ∧ GLCall.glCallList 11 ∉ w'.SCREEN.gl ∧
      GLCall.glCallList 12 ∉ w'.SCREEN.gl ∧ GLCall.glCallList 13 ∉ w'.SCREEN.gl := by
  refine ⟨rfl, rfl, ?_⟩
  obtain ⟨s', m', hr, _, _, _, _, _, _, _, _, hgl, _⟩ :=
    Render_ready exampleDraw 3 (exampleWorld false Direction.SOUTHEAST) (exampleMap false)
      rfl rfl (by simp [Map.fitsRender, exampleMap])
  refine ⟨_, hr, ?_⟩
  show GLCall.glCallList 10 ∈ s'.gl ∧ GLCall.glCallList 11 ∉ s'.gl ∧
      GLCall.glCallList 12 ∉ s'.gl ∧ GLCall.glCallList 13 ∉ s'.gl
  rw [hgl]
  simp [exampleWorld, exampleScreen, exampleCamera, exampleMap, renderPrelude, renderPostlude,
    frameCalls, levelCalls, planeCalls, rowCalls, callsUpTo, cellCalls, replayCalls,
    Map.getCell]

/-- C4, amended. Replay issues one cached block. In every `Render` call with
the world ready (map extents representable in the loop counters, enough fuel),
for every cell `(x, y, z)` of the map that passes the frustum test, whose level
is at most the camera look level and that is not dirty, `Render` returns and
its command stream contains the replay of the cell: `glColor3f` of the level's
shading followed by one `glCallList` on a list `l` of the cell's block
`DrawListID .. DrawListID + 3` (sums on `GLuint`). Every other `glCallList` of
the frame is the replay of another cell, on that cell's handle; no `Draw` is
called on the cell anywhere in the frame; the cell is left unchanged. -/
theorem Render_replays_clean_cell (cellDraw : Nat → Nat → Nat → Direction → List Nat)
    (fuel : Nat) (w : World) (m : Map) (x y z : Nat)
    (hm : w.MAP = some m) (hi : m.Initialized = true) (hfit : m.fitsRender fuel)
    (hx : x < m.getCellSizeX) (hy : y < m.getCellSizeY) (hz : z < m.getCellSizeZ)
    (hlook : (z : ℚ) ≤ w.SCREEN.MainCamera.LookZ)
    (hfr : w.SCREEN.MainCamera.sphereInFrustum (m.getCell x y z).Position
      (w.CellEdgeLength % 65536) = true)
    (hclean : (m.getCell x y z).DirtyDrawlist = false) :
    ∃ w' m' pre l post, Render cellDraw fuel w = some (true, w') ∧ w'.MAP = some m' ∧
      (l = (m.getCell x y z).DrawListID ∨
        l = ((m.getCell x y z).DrawListID + 1) % 4294967296 ∨
        l = ((m.getCell x y z).DrawListID + 2) % 4294967296 ∨
        l = ((m.getCell x y z).DrawListID + 3) % 4294967296) ∧
      w'.SCREEN.gl = w.SCREEN.gl ++ (pre ++
        [GLCall.glColor3f (getShading w.SCREEN (z : ℚ)) (getShading w.SCREEN (z : ℚ))
            (getShading w.SCREEN (z : ℚ)),
          GLCall.glCallList l] ++ post) ∧
      (∀ i, GLCall.glCallList i ∈ pre ++ post →
        ∃ a b d, ¬ (a = x ∧ b = y ∧ d = z) ∧ a < m.getCellSizeX ∧ b < m.getCellSizeY ∧
          d < m.getCellSizeZ ∧ i = (m.getCell a b d).DrawListID) ∧
      (∀ o, GLCall.CellDraw x y z o ∉ pre ++
        [GLCall.glColor3f (getShading w.SCREEN (z : ℚ)) (getShading w.SCREEN (z : ℚ))
            (getShading w.SCREEN (z : ℚ)),
          GLCall.glCallList l] ++ post) ∧
      m'.getCell x y z = m.getCell x y z := by
  obtain ⟨w', m', pre, post, hr, hmap, hgl, hcell, hdraw, hcall⟩ :=
    Render_cell_segment cellDraw fuel w m x y z hm hi hfit hx hy hz hlook
  have hcc : cellCalls w.SCREEN.MainCamera (w.CellEdgeLength % 65536)
      (getShading w.SCREEN (z : ℚ)) x y z (m.getCell x y z) =
      [GLCall.glColor3f (getShading w.SCREEN (z : ℚ)) (getShading w.SCREEN (z : ℚ))
          (getShading w.SCREEN (z : ℚ)),
        GLCall.glCallList (m.getCell x y z).DrawListID] := by
    simp [cellCalls, hfr, hclean, replayCalls]
  rw [hcc] at hgl
  refine ⟨w', m', pre, (m.getCell x y z).DrawListID, post, hr, hmap, Or.inl rfl, hgl, hcall,
    ?_, ?_⟩
  · intro o hmem
    rw [List.mem_append, List.mem_append] at hmem
    rcases hmem with (h | h) | h
    · exact hdraw o (List.mem_append.mpr (Or.inl h))
    · simp at h
    · exact hdraw o (List.mem_append.mpr (Or.inr h))
  · rw [hcell]
    simp [cellAfter, hfr, hclean]

/-- Witness of C4 (amended): the clean cell `(0, 0, 0)` of the example world,
camera facing south-east. -/
theorem Render_replays_clean_cell_witness :
    ∃ w' m', Render exampleDraw 3 (exampleWorld false Direction.SOUTHEAST) = some (true, w') ∧
      w'.MAP = some m' ∧ m'.getCell 0 0 0 = (exampleMap false).getCell 0 0 0 ∧
      ∀ o, GLCall.CellDraw 0 0 0 o ∉ w'.SCREEN.gl := by
  obtain ⟨w', m', pre, l, post, hr, hmap, _, hgl, _, hnodraw, hsame⟩ :=
    Render_replays_clean_cell exampleDraw 3 (exampleWorld false Direction.SOUTHEAST)
      (exampleMap false) 0 0 0 rfl rfl (by simp [Map.fitsRender, exampleMap])
      (by decide) (by decide) (by decide)
      (by simp [exampleWorld, exampleScreen, exampleCamera]) rfl rfl
  refine ⟨w', m', hr, hmap, hsame, ?_⟩
  intro o
  rw [hgl]
  simpa [exampleWorld, exampleScreen] using hnodraw o

/-! ## The cached triangle count -/

/-- The test `World.rebuilds` is the rebuild branch of `Render`: in a ready
world, `Render` calls `Draw` on the cell `(x, y, z)` during the frame exactly
when `rebuilds` holds for it. -/
theorem rebuilds_iff_CellDraw (cellDraw : Nat → Nat → Nat → Direction → List Nat) (fuel : Nat)
    (w : World) (m : Map) (x y z : Nat)
    (hm : w.MAP = some m) (hi : m.Initialized = true) (hfit : m.fitsRender fuel) :
    ∃ w' frame, Render cellDraw fuel w = some (true, w') ∧
      w'.SCREEN.gl = w.SCREEN.gl ++ frame ∧
      (w.rebuilds x y z = true ↔ ∃ o, GLCall.CellDraw x y z o ∈ frame) := by
  obtain ⟨s', m', hr, _, _, _, _, _, _, _, _, hgl, _⟩ := Render_ready cellDraw fuel w m hm hi hfit
  refine ⟨_, _, hr, hgl, ?_, ?_⟩
  · intro hreb
    simp only [World.rebuilds, hm, hi, Bool.true_and, Bool.and_eq_true] at hreb
    obtain ⟨⟨hreg, hfr⟩, hd⟩ := hreb
    simp only [frameRegion, Bool.and_eq_true, decide_eq_true_eq] at hreg
    obtain ⟨⟨⟨hz, hlook⟩, hx⟩, hy⟩ := hreg
    obtain ⟨pre, post, hsplit, _⟩ :=
      frame_split w.SCREEN (w.CellEdgeLength % 65536) m x y z hx hy hz hlook
    refine ⟨Direction.NORTHEAST, ?_⟩
    rw [hsplit]
    simp [cellCalls, hfr, hd, rebuildCalls, refreshCalls]
  · rintro ⟨o, ho⟩
    simp only [List.mem_append] at ho
    rcases ho with (ho | ho) | ho
    · by_cases hfd : w.SCREEN.FrameDraw = true <;> simp [renderPrelude, hfd] at ho
    · unfold frameCalls at ho
      rw [mem_callsUpTo] at ho
      obtain ⟨d, hd, hc⟩ := ho
      rcases mem_levelCalls _ _ _ _ _ hc with ⟨r, h⟩ | ⟨a, b, ha, hb, hlook, hc'⟩
      · simp at h
      · obtain ⟨rfl, rfl, rfl, hdirty, hfr⟩ := mem_cellCalls_CellDraw _ _ _ _ _ _ _ _ _ _ o hc'
        simp [World.rebuilds, hm, hi, frameRegion, ha, hb, hd, hlook, hdirty, hfr]
    · simp [renderPostlude] at ho



theorem sumUpTo_diff (f g : Nat → Nat) (n i k : Nat) (hi : i < n)
    (h : ∀ j, j < n → j ≠ i → f j = g j) (hk : f i = g i + k) :
    sumUpTo f n = sumUpTo g n + k := by
  induction n with
  | zero => omega
  | succ n ih =>
    simp only [sumUpTo]
    by_cases hin : i = n
    · subst hin
      rw [sumUpTo_congr f g i (fun j hj => h j (by omega) (by omega)), hk]
      omega
    · rw [ih (by omega) (fun j hj hji => h j (by omega) hji), h n (by omega) (fun h => hin h.symm)]
      omega

theorem frameTris_diff (cellDraw : Nat → Nat → Nat → Direction → List Nat) (cam : Camera)
    (edge : Nat) (m m' : Map) (x y z k : Nat)
    (hX : m'.CellSizeX = m.CellSizeX) (hY : m'.CellSizeY = m.CellSizeY)
    (hZ : m'.CellSizeZ = m.CellSizeZ)
    (hcell : ∀ a b d, ¬ (a = x ∧ b = y ∧ d = z) → m'.getCell a b d = m.getCell a b d)
    (hk : cellTriangles cellDraw cam edge x y z (m.getCell x y z) =
      cellTriangles cellDraw cam edge x y z (m'.getCell x y z) + k)
    (hx : x < m.CellSizeX) (hy : y < m.CellSizeY) (hz : z < m.CellSizeZ)
    (hlook : (z : ℚ) ≤ cam.LookZ) :
    frameTris cellDraw cam edge m m.CellSizeZ = frameTris cellDraw cam edge m' m'.CellSizeZ + k := by
  rw [hZ]
  unfold frameTris
  refine sumUpTo_diff _ _ _ z k hz ?_ ?_
  · intro d _ hdz
    exact (levelTris_congr cellDraw cam edge m m' d hX hY
      (fun a b _ _ => hcell a b d (fun h => hdz h.2.2))).symm
  · simp only [levelTris, if_pos hlook, planeTris, hX, hY]
    refine sumUpTo_diff _ _ _ x k hx ?_ ?_
    · intro a _ hax
      exact (rowTris_congr cellDraw cam edge m m' a z _
        (fun b _ => hcell a b z (fun h => hax h.1))).symm
    · simp only [rowTris]
      refine sumUpTo_diff _ _ _ y k hy ?_ hk
      intro b _ hby
      rw [hcell x b z (fun h => hby h.2.1)]

theorem perform_preserves_count (fuel : Nat) (X Y Z x y z k : Nat) (w : World) (op : FrameOp)
    (hinv : CountInv X Y Z x y z k w)
    (hfit : Z < 65536 ∧ X < 4294967296 ∧ Y < 4294967296 ∧ X < fuel ∧ Y < fuel ∧ Z < fuel)
    (hno : match op with
      | .render _ => w.rebuilds x y z = false
      | _ => True) :
    ∃ w', op.perform fuel w = some w' ∧ CountInv X Y Z x y z k w' ∧
      w'.CellEdgeLength = w.CellEdgeLength := by
  obtain ⟨m, hm, hi, hX, hY, hZ, hk⟩ := hinv
  cases op with
  | render cellDraw =>
    have hfit' : m.fitsRender fuel := by
      unfold Map.fitsRender
      rw [hX, hY, hZ]
      exact hfit
    obtain ⟨s', m', hr, _, _, _, hi', hX', hY', hZ', hcells, _, _⟩ :=
      Render_ready cellDraw fuel w m hm hi hfit'
    refine ⟨{ w with SCREEN := s', MAP := some m' }, by simp [FrameOp.perform, hr],
      ⟨m', rfl, hi'.trans hi, hX'.trans hX, hY'.trans hY, hZ'.trans hZ, ?_⟩, rfl⟩
    rw [hcells x y z, ← hk]
    have hno' : w.rebuilds x y z = false := hno
    simp only [World.rebuilds, hm, hi, Bool.true_and] at hno'
    by_cases hreg : frameRegion w.SCREEN.MainCamera m.CellSizeX m.CellSizeY m.CellSizeZ x y z
        = true
    · by_cases hfr : w.SCREEN.MainCamera.sphereInFrustum (m.getCell x y z).Position
          (w.CellEdgeLength % 65536) = true
      · have hd : (m.getCell x y z).DirtyDrawlist = false := by
          simpa [hreg, hfr] using hno'
        simp [hreg, cellAfter, hfr, hd]
      · simp [hreg, cellAfter, hfr]
    · simp [hreg]
  | dirtyAllLists =>
    have hfit' : m.fitsDirty fuel := by
      unfold Map.fitsDirty
      rw [hX, hY, hZ]
      exact ⟨by omega, hfit.2.1, hfit.2.2.1, hfit.2.2.2.1, hfit.2.2.2.2.1, hfit.2.2.2.2.2⟩
    obtain ⟨m', hr, hi', hX', hY', hZ', hcells⟩ :=
      DirtyAllLists_ready fuel w m hm hi hfit'
    refine ⟨{ w with MAP := some m' }, hr,
      ⟨m', rfl, hi'.trans hi, hX'.trans hX, hY'.trans hY, hZ'.trans hZ, ?_⟩, rfl⟩
    rw [hcells x y z, ← hk]
    cases boxRegion m.CellSizeX m.CellSizeY m.CellSizeZ x y z <;> simp
  | setCamera cam =>
    exact ⟨{ w with SCREEN := { w.SCREEN with MainCamera := cam } }, rfl,
      ⟨m, hm, hi, hX, hY, hZ, hk⟩, rfl⟩
  | markDirty a b d =>
    refine ⟨{ w with MAP := w.MAP.map (fun m =>
        m.setCell a b d { m.getCell a b d with DirtyDrawlist := true }) }, rfl,
      ⟨m.setCell a b d { m.getCell a b d with DirtyDrawlist := true },
        by simp [hm], hi, hX, hY, hZ, ?_⟩, rfl⟩
    rw [← hk]
    by_cases hc : x = a ∧ y = b ∧ z = d
    · obtain ⟨rfl, rfl, rfl⟩ := hc
      simp [Map.setCell, Map.getCell]
    · simp [Map.setCell, Map.getCell, hc]

theorem performOps_preserves_count (fuel : Nat) (X Y Z x y z k : Nat) (ops : List FrameOp)
    (hfit : Z < 65536 ∧ X < 4294967296 ∧ Y < 4294967296 ∧ X < fuel ∧ Y < fuel ∧ Z < fuel) :
    ∀ w, CountInv X Y Z x y z k w → noRebuildBetween fuel x y z w ops →
      ∃ w', performOps fuel w ops = some w' ∧ CountInv X Y Z x y z k w' ∧
        w'.CellEdgeLength = w.CellEdgeLength := by
  induction ops with
  | nil =>
    intro w hinv _
    exact ⟨w, rfl, hinv, rfl⟩
  | cons op ops ih =>
    intro w hinv hno
    obtain ⟨hno1, hno2⟩ := hno
    obtain ⟨w1, hw1, hinv1, he1⟩ := perform_preserves_count fuel X Y Z x y z k w op hinv hfit hno1
    rw [hw1] at hno2
    obtain ⟨w2, hw2, hinv2, he2⟩ := ih w1 hinv1 hno2
    exact ⟨w2, by simp [performOps, hw1, hw2], hinv2, he2.trans he1⟩

/-- C5, counterexample: the dirty cell `(0, 0, 0)` of the example world holds
the cached count 5 and `Draw` reports 6 triangles for `NORTHEAST` and 1 for
every other orientation. `Render` with the camera facing `NORTH` rebuilds the
cell (it calls `Draw` on it and clears the dirty flag) but records no count: the
cell keeps the count 5, which no orientation reported. The next `Render`
replays the cell and adds that stale 5 to the frame total (5 + 8 = 13). -/
theorem rebuild_facing_north_records_no_count :
    ((exampleMap true).getCell 0 0 0).DirtyDrawlist = true ∧
    ((exampleMap true).getCell 0 0 0).getTriangleCount = 5 ∧
    (∀ o, (exampleDraw 0 0 0 o).sum ≠ 5) ∧
    ∃ w1 m1 w2 m2, Render exampleDraw 3 (exampleWorld true Direction.NORTH) = some (true, w1) ∧
      w1.MAP = some m1 ∧ GLCall.CellDraw 0 0 0 Direction.NORTHEAST ∈ w1.SCREEN.gl ∧
      (m1.getCell 0 0 0).DirtyDrawlist = false ∧ (m1.getCell 0 0 0).getTriangleCount = 5 ∧
      Render exampleDraw 3 w1 = some (true, w2) ∧ w2.MAP = some m2 ∧
      (m2.getCell 0 0 0).getTriangleCount = 5 ∧ w2.SCREEN.TotalTriangles = 13 := by
  refine ⟨rfl, rfl, ?_, ?_⟩
  · intro o
    cases o <;> simp [exampleDraw]
  obtain ⟨s1, m1, hr1, hcam1, _, _, hi1, hX1, hY1, hZ1, hcells1, hgl1, _⟩ :=
    Render_ready exampleDraw 3 (exampleWorld true Direction.NORTH) (exampleMap true) rfl rfl
      (by simp [Map.fitsRender, exampleMap])
  have hc0 : m1.getCell 0 0 0 =
      { Position := ⟨0, 0, 0⟩, DrawListID := 10, DirtyDrawlist := false, TriangleCount := 5 } := by
    rw [hcells1]
    simp [frameRegion, cellAfter, exampleWorld, exampleScreen, exampleCamera, exampleMap,
      Map.getCell, Camera.getDirection, Direction.isDiagonal]
  have hc1 : m1.getCell 1 0 0 =
      { Position := ⟨16, 0, 0⟩, DrawListID := 20, DirtyDrawlist := false, TriangleCount := 8 } := by
    rw [hcells1]
    simp [frameRegion, cellAfter, exampleWorld, exampleScreen, exampleCamera, exampleMap,
      Map.getCell]
  have hX : m1.CellSizeX = 2 := hX1
  have hY : m1.CellSizeY = 1 := hY1
  have hZ : m1.CellSizeZ = 1 := hZ1
  obtain ⟨s2, m2, hr2, _, _, _, _, _, _, _, hcells2, _, htot2⟩ :=
    Render_ready exampleDraw 3
      { exampleWorld true Direction.NORTH with SCREEN := s1, MAP := some m1 } m1 rfl
      (hi1.trans rfl) (by simp [Map.fitsRender, hX, hY, hZ])
  refine ⟨_, m1, _, m2, hr1, rfl, ?_, by rw [hc0], by rw [hc0]; rfl, hr2, rfl, ?_, ?_⟩
  · show GLCall.CellDraw 0 0 0 Direction.NORTHEAST ∈ s1.gl
    rw [hgl1]
    simp [exampleWorld, exampleScreen, exampleCamera, exampleMap, renderPrelude, renderPostlude,
      frameCalls, levelCalls, planeCalls, rowCalls, callsUpTo, cellCalls, replayCalls,
      rebuildCalls_explicit, Camera.getDirection, Map.getCell]
  · show (m2.getCell 0 0 0).TriangleCount = 5
    rw [hcells2, hc0]
    simp [cellAfter]
  · show s2.TotalTriangles = 13
    rw [htot2]
    simp [frameTris, levelTris, planeTris, rowTris, sumUpTo, hX, hY, hZ, hc0, hc1, hcam1,
      cellTriangles, Cell.getTriangleCount, exampleWorld, exampleScreen, exampleCamera]

/-- C5, amended. Cached triangle count is stable across replay. Let a `Render`
call rebuild the cell `(x, y, z)` (world ready, cell dirty, in the frustum, level
at most the look level) while the camera faces one of the four compiled
orientations `o` (`NORTHEAST`, `SOUTHEAST`, `SOUTHWEST`, `NORTHWEST`); the call
returns and records on the cell the number of triangles `Draw(o)` reported
through `IncrementTriangles`. After any sequence of further `Render` calls,
`DirtyAllLists` calls, camera moves and dirty marks in which no `Render` call
rebuilds the cell, the sequence returns and the cell still holds that count;
and a later `Render` call that replays the cell (cell clean, in the frustum,
level at most the look level) returns, leaves the count unchanged and adds
exactly that count to `TotalTriangles`: the frame total is the total of the
same frame with the cell's cached count set to 0, plus the count. -/
theorem cached_triangle_count_stable (cd1 cd2 : Nat → Nat → Nat → Direction → List Nat)
    (fuel : Nat) (w0 : World) (m0 : Map) (x y z : Nat) (ops : List FrameOp)
    (hm : w0.MAP = some m0) (hi : m0.Initialized = true) (hfit : m0.fitsRender fuel)
    (hx : x < m0.getCellSizeX) (hy : y < m0.getCellSizeY) (hz : z < m0.getCellSizeZ)
    (hlook : (z : ℚ) ≤ w0.SCREEN.MainCamera.LookZ)
    (hfr : w0.SCREEN.MainCamera.sphereInFrustum (m0.getCell x y z).Position
      (w0.CellEdgeLength % 65536) = true)
    (hdirty : (m0.getCell x y z).DirtyDrawlist = true)
    (hdir : w0.SCREEN.MainCamera.getDirection = Direction.NORTHEAST ∨
      w0.SCREEN.MainCamera.getDirection = Direction.SOUTHEAST ∨
      w0.SCREEN.MainCamera.getDirection = Direction.SOUTHWEST ∨
      w0.SCREEN.MainCamera.getDirection = Direction.NORTHWEST) :
    ∃ w1 m1, Render cd1 fuel w0 = some (true, w1) ∧ w1.MAP = some m1 ∧
      (m1.getCell x y z).DirtyDrawlist = false ∧
      (m1.getCell x y z).getTriangleCount = (cd1 x y z w0.SCREEN.MainCamera.getDirection).sum ∧
      (noRebuildBetween fuel x y z w1 ops →
        ∃ w2 m2, performOps fuel w1 ops = some w2 ∧ w2.MAP = some m2 ∧
          (m2.getCell x y z).getTriangleCount =
            (cd1 x y z w0.SCREEN.MainCamera.getDirection).sum ∧
          ((z : ℚ) ≤ w2.SCREEN.MainCamera.LookZ →
            w2.SCREEN.MainCamera.sphereInFrustum (m2.getCell x y z).Position
              (w2.CellEdgeLength % 65536) = true →
            (m2.getCell x y z).DirtyDrawlist = false →
            ∃ w3 m3 w3', Render cd2 fuel w2 = some (true, w3) ∧ w3.MAP = some m3 ∧
              (m3.getCell x y z).getTriangleCount =
                (cd1 x y z w0.SCREEN.MainCamera.getDirection).sum ∧
              Render cd2 fuel { w2 with MAP := some (m2.setCell x y z
                ((m2.getCell x y z).setTriangleCount 0)) } = some (true, w3') ∧
              w3.SCREEN.TotalTriangles = w3'.SCREEN.TotalTriangles +
                (cd1 x y z w0.SCREEN.MainCamera.getDirection).sum)) := by
  simp only [Map.getCellSizeX, Map.getCellSizeY, Map.getCellSizeZ] at hx hy hz
  have hdiag : w0.SCREEN.MainCamera.getDirection.isDiagonal = true := by
    rcases hdir with h | h | h | h <;> rw [h] <;> rfl
  obtain ⟨s1, m1, hr1, _, _, _, hi1, hX1, hY1, hZ1, hcells1, _, _⟩ :=
    Render_ready cd1 fuel w0 m0 hm hi hfit
  have hreg0 : frameRegion w0.SCREEN.MainCamera m0.CellSizeX m0.CellSizeY m0.CellSizeZ x y z
      = true := by simp [frameRegion, hx, hy, hz, hlook]
  have hcell1 : m1.getCell x y z = { m0.getCell x y z with
      TriangleCount := (cd1 x y z w0.SCREEN.MainCamera.getDirection).sum,
      DirtyDrawlist := false } := by
    rw [hcells1 x y z]
    simp [hreg0, cellAfter, hfr, hdirty, hdiag]
  have hcount1 : (m1.getCell x y z).TriangleCount =
      (cd1 x y z w0.SCREEN.MainCamera.getDirection).sum := by rw [hcell1]
  refine ⟨{ w0 with SCREEN := s1, MAP := some m1 }, m1, hr1, rfl, by rw [hcell1], hcount1, ?_⟩
  intro hno
  obtain ⟨w2, hw2, ⟨m2, hm2, hi2, hX2, hY2, hZ2, hcount2⟩, _⟩ :=
    performOps_preserves_count fuel m0.CellSizeX m0.CellSizeY m0.CellSizeZ x y z
      (cd1 x y z w0.SCREEN.MainCamera.getDirection).sum ops hfit
      { w0 with SCREEN := s1, MAP := some m1 }
      ⟨m1, rfl, hi1.trans hi, hX1, hY1, hZ1, hcount1⟩ hno
  refine ⟨w2, m2, hw2, hm2, hcount2, ?_⟩
  intro hlook2 hfr2 hclean2
  have hfit2 : m2.fitsRender fuel := by
    unfold Map.fitsRender
    rw [hX2, hY2, hZ2]
    exact hfit
  obtain ⟨s3, m3, hr3, _, _, _, _, _, _, _, hcells3, _, htot3⟩ :=
    Render_ready cd2 fuel w2 m2 hm2 hi2 hfit2
  obtain ⟨s3', m3', hr3', _, _, _, _, _, _, _, _, _, htot3'⟩ :=
    Render_ready cd2 fuel
      { w2 with MAP := some (m2.setCell x y z ((m2.getCell x y z).setTriangleCount 0)) }
      (m2.setCell x y z ((m2.getCell x y z).setTriangleCount 0)) rfl hi2 hfit2
  have hreg2 : frameRegion w2.SCREEN.MainCamera m2.CellSizeX m2.CellSizeY m2.CellSizeZ x y z
      = true := by
    rw [hX2, hY2, hZ2]
    simp [frameRegion, hx, hy, hz, hlook2]
  refine ⟨{ w2 with SCREEN := s3, MAP := some m3 }, m3, _, hr3, rfl, ?_, hr3', ?_⟩
  · show (m3.getCell x y z).TriangleCount = _
    rw [hcells3 x y z, ← hcount2]
    simp [hreg2, cellAfter, hfr2, hclean2]
  · show s3.TotalTriangles = s3'.TotalTriangles + _
    rw [htot3, htot3']
    refine frameTris_diff cd2 w2.SCREEN.MainCamera (w2.CellEdgeLength % 65536) m2
      (m2.setCell x y z ((m2.getCell x y z).setTriangleCount 0)) x y z _ rfl rfl rfl ?_ ?_
      (by omega) (by omega) (by omega) hlook2
    · intro a b d hne
      simp [Map.setCell, Map.getCell, hne]
    · have hz0 : (m2.setCell x y z ((m2.getCell x y z).setTriangleCount 0)).getCell x y z =
          (m2.getCell x y z).setTriangleCount 0 := by
        simp [Map.setCell, Map.getCell]
      rw [hz0, ← hcount2]
      simp [cellTriangles, Cell.setTriangleCount, Cell.getTriangleCount, hfr2, hclean2]

/-- Witness of C5 (amended): the dirty cell `(0, 0, 0)` of the example world is rebuilt
facing north-east (6 triangles reported), the camera then turns south-west, and
the next frame replays the cell. -/
theorem cached_triangle_count_stable_witness :
    ∃ w1 w2 m2 w3 m3, Render exampleDraw 3 (exampleWorld true Direction.NORTHEAST) = some (true, w1) ∧
      performOps 3 w1 [FrameOp.setCamera (exampleCamera 0 Direction.SOUTHWEST)] = some w2 ∧
      w2.MAP = some m2 ∧ (m2.getCell 0 0 0).getTriangleCount = 6 ∧
      Render exampleDraw 3 w2 = some (true, w3) ∧ w3.MAP = some m3 ∧
      (m3.getCell 0 0 0).getTriangleCount = 6 := by
  obtain ⟨w1, m1, hr1, hm1, hclean1, hcount1, hrest⟩ :=
    cached_triangle_count_stable exampleDraw exampleDraw 3
      (exampleWorld true Direction.NORTHEAST) (exampleMap true) 0 0 0
      [FrameOp.setCamera (exampleCamera 0 Direction.SOUTHWEST)]
      rfl rfl (by simp [Map.fitsRender, exampleMap]) (by decide) (by decide) (by decide)
      (by simp [exampleWorld, exampleScreen, exampleCamera]) rfl rfl (Or.inl rfl)
  obtain ⟨w2, m2, hops, hm2, hcount2, hreplay⟩ :=
    hrest (by simp [noRebuildBetween, FrameOp.perform])
  have hw2 : w2 = { w1 with SCREEN :=
      { w1.SCREEN with MainCamera := exampleCamera 0 Direction.SOUTHWEST } } := by
    simpa [performOps, FrameOp.perform] using hops.symm
  have hm12 : m2 = m1 := by
    rw [hw2] at hm2
    simpa [hm1] using hm2.symm
  obtain ⟨w3, m3, _, hr3, hm3, hcount3, _, _⟩ := hreplay
    (by rw [hw2]; simp [exampleCamera])
    (by rw [hw2]; rfl)
    (by rw [hm12]; exact hclean1)
  exact ⟨w1, w2, m2, w3, m3, hr1, hops, hm2, hcount2, hr3, hm3, hcount3⟩

end Khazad
